import Mathlib

/-!
# Verification of the pubnwr playout pipeline

Shallow embedding of the core of the `pubnwr` repository:

* `src/models/track_info.py` — `TrackInfo.from_json`, `_clean_title`, `is_valid_song`
* `src/handlers/playout_handler.py` — `process_new_track_data` and the session state
* `src/services/social_publisher.py` — `publish_socials`, the publication ledger
* `src/handlers/file_handler.py` — `_get_file_state`, the stability loop step, the
  forced periodic check of `start_file_watch`
* `src/utils/json_utils.py` — `sanitize_json`, `safe_json_loads`

Python strings are Lean `String`s; JSON scalar field values are the inductive
`JVal` (string / integer / null, the shapes relevant to the playout fields);
side effects are reified as an explicit `Effect` list; `datetime` values are
abstract `Nat` instants supplied as parameters.
-/

namespace PubNWR

/-- A JSON scalar value as stored in the decoded playout dict
(the shapes that matter for the playout fields). -/
inductive JVal where
  | str (s : String)
  | num (n : Int)
  | null
deriving DecidableEq, Repr

/-- The decoded playout JSON object: an association list of fields. -/
def JObj := List (String × JVal)

/-- `data.get(key)` on a Python dict: first binding for `key`, if any. -/
def jget (d : JObj) (k : String) : Option JVal :=
  (d.find? (fun p => p.1 = k)).map (fun p => p.2)

/-- Python whitespace as used by `str.strip()` and the regex class `\s`
(restricted to ASCII, the character set of the playout files). -/
def pyIsSpace (c : Char) : Bool :=
  c == ' ' || c == '\t' || c == '\n' || c == '\r' ||
  c == Char.ofNat 11 || c == Char.ofNat 12

/-- Python `str.strip()`: drop leading and trailing whitespace.
(Implemented over the character list so that it reduces by `rfl`;
`String.trim` relies on well-founded recursion.) -/
def pyStrip (s : String) : String :=
  String.mk (((s.data.dropWhile pyIsSpace).reverse.dropWhile pyIsSpace).reverse)

/-- `data.get(key, default)` followed by use as a `str`: yields the string
value, the default when the key is absent, and raises (models Python's
`AttributeError`/`TypeError` on a non-`str` value) otherwise. -/
def getStrOr (d : JObj) (k : String) (dflt : String) : Except String String :=
  match jget d k with
  | none => .ok dflt
  | some (.str s) => .ok s
  | some _ => .error "AttributeError: not a str"

/-- Python `int(s)` on a string: optional surrounding whitespace, optional
sign, one or more decimal digits (underscore separators are not modelled). -/
def pyIntOfString (s : String) : Option Int :=
  let cs := s.data.dropWhile pyIsSpace
  let cs := (cs.reverse.dropWhile pyIsSpace).reverse
  let (sign, digits) :=
    match cs with
    | '-' :: rest => (true, rest)
    | '+' :: rest => (false, rest)
    | _ => (false, cs)
  if digits = [] then none
  else if digits.all Char.isDigit then
    let n : Nat := digits.foldl (fun acc c => acc * 10 + (c.toNat - 48)) 0
    some (if sign then -(n : Int) else (n : Int))
  else none

/-- Python `int(x)` on a decoded JSON scalar. -/
def pyInt : JVal → Except String Int
  | .num n => .ok n
  | .str s =>
    match pyIntOfString s with
    | some n => .ok n
    | none => .error "ValueError: invalid literal for int()"
  | .null => .error "TypeError: int() argument"

/-- `int(data.get('duration', 0))` from `TrackInfo.from_json`. -/
def getDuration (d : JObj) : Except String Int :=
  match jget d "duration" with
  | none => .ok 0
  | some v => pyInt v

/-- The `TrackInfo` dataclass of `src/models/track_info.py`. -/
structure TrackInfo where
  artist : String
  title : String
  album : String
  publisher : String
  ISRC : String
  image : String
  publish_image : String
  start_time : String
  duration : Int
  program_title : String
  presenter : String
deriving DecidableEq, Repr

namespace TrackInfo

/-- `TrackInfo.is_valid_song`: artist and title both non-empty after strip.
Fails when a present field is not a `str` (Python would raise on `.strip()`). -/
def is_valid_song (d : JObj) : Except String Bool := do
  let artist ← getStrOr d "artist" ""
  let title ← getStrOr d "title" ""
  .ok (!(pyStrip artist == "") && !(pyStrip title == ""))

/-- `TrackInfo._clean_title`: `re.split(r'[\(\[\<]', title)[0]` then `strip()` —
the prefix before the first `(`, `[` or `<`, trimmed. -/
def clean_title (t : String) : String :=
  pyStrip (String.mk (t.data.takeWhile (fun c => !(c == '(' || c == '[' || c == '<'))))

/-- `TrackInfo.from_json`.  `fresh` is the hex digest produced by
`uuid.uuid4().hex` (32 hex characters in CPython); `nowIso` is
`datetime.utcnow().isoformat()` at the call instant. -/
def from_json (fresh nowIso : String) (d : JObj) : Except String TrackInfo := do
  let valid ← is_valid_song d
  -- `if not cls.is_valid_song(data)` — `cond` on the Bool, placeholder branch
  -- when invalid, regular song branch when valid.
  cond valid
    (do
      let artist ← getStrOr d "artist" "Unknown Artist"
      let title ← getStrOr d "title" "Unknown Title"
      let album ← getStrOr d "album" "Unknown Album"
      let publisher ← getStrOr d "publisher" ""
      let isrc ← getStrOr d "ISRC" ""
      let image ← getStrOr d "image" "art-00.jpg"
      let starttime ← getStrOr d "starttime" nowIso
      let dur ← getDuration d
      let prog ← getStrOr d "program" "Unknown Program"
      let pres ← getStrOr d "presenter" ""
      .ok { artist := pyStrip artist, title := clean_title title, album := pyStrip album
          , publisher := pyStrip publisher, ISRC := pyStrip isrc, image := pyStrip image
          , publish_image := fresh ++ ".jpg"
          , start_time := starttime, duration := dur
          , program_title := pyStrip prog, presenter := pyStrip pres })
    (do
      let prog ← getStrOr d "program" "Unknown Program"
      let pres ← getStrOr d "presenter" ""
      .ok { artist := "", title := "", album := "", publisher := "", ISRC := ""
          , image := "default-art.jpg", publish_image := "default-art.jpg"
          , start_time := nowIso, duration := 0
          , program_title := pyStrip prog, presenter := pyStrip pres })

end TrackInfo

example :
    TrackInfo.from_json "0123456789abcdef0123456789abcdef" "now"
      [("artist", .str "Artist A"), ("title", .str "Song B (Live)"),
       ("album", .str "Album C"), ("duration", .num 180),
       ("program", .str "Morning Show")] =
    .ok { artist := "Artist A", title := "Song B", album := "Album C"
        , publisher := "", ISRC := "", image := "art-00.jpg"
        , publish_image := "0123456789abcdef0123456789abcdef.jpg"
        , start_time := "now", duration := 180
        , program_title := "Morning Show", presenter := "" } := rfl

example :
    TrackInfo.from_json "0123456789abcdef0123456789abcdef" "now"
      [("artist", .str "A"), ("title", .str "T"), ("duration", .str "abc")] =
    .error "ValueError: invalid literal for int()" := rfl

example :
    (TrackInfo.from_json "0123456789abcdef0123456789abcdef" "now"
      [("artist", .str "X"), ("title", .str "(Live)")]).map TrackInfo.title =
    .ok "" := rfl

/-! ## Playout state machine (`src/handlers/playout_handler.py`) -/

/-- The configuration fields of `ConfigHandler` consumed by
`process_new_track_data`. -/
structure PConfig where
  skip_artists : List String
  skip_titles : List String
deriving DecidableEq, Repr

/-- The `PlayoutData.state` dict (the session state).  Times are abstract
`Nat` instants. -/
structure PState where
  last_program_name : Option String
  program_start_time : Option Nat
  tracks_played : Nat
  current_track_duration : Int
  last_published_image : Option String
  last_processed_checksum : Option String
  last_processed_time : Nat
deriving DecidableEq, Repr

/-- Reified side effects of one `process_new_track_data` call, in program
order.  `publishSocials` is a dispatch to `SocialPublisher.publish_socials`
for one service; `copyArtwork`/`writePlaylist` carry the `publish_image`
name used for the artwork file and the web snapshot. -/
inductive Effect where
  | removeArtwork (name : String)
  | programNotify (program : String)
  | publishSocials (service : String) (artist title : String)
  | copyArtwork (publishImage : String)
  | writePlaylist (publishImage : String)
deriving DecidableEq, Repr

/-- The five services dispatched to in `process_new_track_data`
(enum values of `SocialService`, in loop order). -/
def serviceNames : List String :=
  ["Last.FM", "Listenbrainz", "Facebook", "Bluesky", "SoundExchange"]

/-- The tail of `process_new_track_data` for a genuine new track (the code
after the duplicate-track check): state updates, old-artwork cleanup,
program-transition handling (note the source nests the whole update block
under `if state["last_program_name"] is not None`), track counting, skip
checks and the publish/artwork/web-snapshot steps. -/
def processValidTrack (cfg : PConfig) (now : Nat) (np : TrackInfo) (st : PState) :
    PState × List Effect :=
  let current_program_name := pyStrip np.program_title
  let st1 : PState :=
    { st with last_processed_checksum := some (np.artist ++ ":" ++ np.title)
            , last_processed_time := now
            , current_track_duration := np.duration }
  let effs1 : List Effect :=
    match st1.last_published_image with
    | some prev => [.removeArtwork prev]
    | none => []
  let r2 :=
    if !(some current_program_name == st1.last_program_name) then
      if !(st1.last_program_name == none) then
        ({ st1 with tracks_played := 0
                  , program_start_time := some now
                  , last_program_name := some current_program_name },
         effs1 ++ [.programNotify current_program_name])
      else (st1, effs1)
    else (st1, effs1)
  let st3 := { r2.1 with tracks_played := r2.1.tracks_played + 1 }
  if np.artist ∈ cfg.skip_artists then (st3, r2.2)
  else if np.title ∈ cfg.skip_titles then (st3, r2.2)
  else
    ({ st3 with last_published_image := some np.publish_image },
     r2.2
       ++ serviceNames.map (fun s => .publishSocials s np.artist np.title)
       ++ [.copyArtwork np.publish_image, .writePlaylist np.publish_image])

/-- `process_new_track_data(playout_data, state, db_handler, config)`.

* `now` models `time.time()`; `nowIso` models `datetime.utcnow().isoformat()`;
  `fresh` the `uuid4().hex` digest drawn during extraction.
* Any exception escaping the body (e.g. `int()` failing on a bad duration) is
  caught by the top-level handler: no state change, no effects.
* The `strptime` of `start_time` only feeds a log line: its `ValueError` is
  caught in place and it touches neither state nor effects, so it is omitted.
* `remove_old_artwork` only acts when `last_published_image` is set;
  `copy_album_artwork`/`write_playlist_json` catch their own IO errors. -/
def process_new_track_data (cfg : PConfig) (now : Nat) (nowIso fresh : String)
    (data : JObj) (st : PState) : PState × List Effect :=
  match TrackInfo.from_json fresh nowIso data with
  | .error _ => (st, [])
  | .ok np =>
    -- `playout_data.data['publish_image'] = now_playing.publish_image`
    -- mutates the decoded dict, not the session state.
    if np.publish_image == "default-art.jpg" then
      -- non-song content: artwork to default image, regenerate web snapshot
      (st, [.copyArtwork "default-art.jpg", .writePlaylist "default-art.jpg"])
    else
      if st.last_processed_checksum == some (np.artist ++ ":" ++ np.title) then
        -- duplicate track: return with no side effects
        (st, [])
      else processValidTrack cfg now np st

/-- Processing a sequence of stabilized snapshots: each element carries the
uuid digest drawn for it and its decoded content. -/
def processRun (cfg : PConfig) (now : Nat) (nowIso : String)
    (inputs : List (String × JObj)) (st : PState) :
    PState × List (List Effect) :=
  match inputs with
  | [] => (st, [])
  | (fresh, d) :: rest =>
    let r1 := process_new_track_data cfg now nowIso fresh d st
    let r2 := processRun cfg now nowIso rest r1.1
    (r2.1, r1.2 :: r2.2)

/-- A session state as freshly initialised by `PlayoutData.__init__`. -/
def initState (dur : Int) (t0 : Nat) : PState :=
  { last_program_name := none, program_start_time := none, tracks_played := 0
  , current_track_duration := dur, last_published_image := none
  , last_processed_checksum := none, last_processed_time := t0 }

example :
    process_new_track_data ⟨["SkipMe"], []⟩ 100 "now"
      "0123456789abcdef0123456789abcdef"
      [("artist", .str "SkipMe"), ("title", .str "Song"),
       ("program", .str "Morning Show")]
      (initState 0 0) =
    ({ last_program_name := none, program_start_time := none, tracks_played := 1
     , current_track_duration := 0, last_published_image := none
     , last_processed_checksum := some "SkipMe:Song", last_processed_time := 100 },
     []) := rfl

example :
    process_new_track_data ⟨[], []⟩ 100 "now"
      "0123456789abcdef0123456789abcdef"
      [("artist", .str "A"), ("title", .str "T"), ("program", .str "P")]
      (initState 0 0) =
    ({ last_program_name := none, program_start_time := none, tracks_played := 1
     , current_track_duration := 0
     , last_published_image := some "0123456789abcdef0123456789abcdef.jpg"
     , last_processed_checksum := some "A:T", last_processed_time := 100 },
     [.publishSocials "Last.FM" "A" "T", .publishSocials "Listenbrainz" "A" "T",
      .publishSocials "Facebook" "A" "T", .publishSocials "Bluesky" "A" "T",
      .publishSocials "SoundExchange" "A" "T",
      .copyArtwork "0123456789abcdef0123456789abcdef.jpg",
      .writePlaylist "0123456789abcdef0123456789abcdef.jpg"]) := rfl

/-! ## Publish dedup coordinator (`src/services/social_publisher.py`) -/

/-- The `SocialService` enum. -/
inductive SocialService where
  | lastfm | listenbrainz | facebook | bluesky | soundexchange
deriving DecidableEq, Repr

/-- `SocialService.value`. -/
def SocialService.value : SocialService → String
  | .lastfm => "Last.FM"
  | .listenbrainz => "Listenbrainz"
  | .facebook => "Facebook"
  | .bluesky => "Bluesky"
  | .soundexchange => "SoundExchange"

/-- A row of the `realtime` table (the publication ledger):
`INSERT INTO realtime(service, artist, title, timestamp)`. -/
structure LedgerRec where
  service : String
  artist : String
  title : String
  timestamp : Nat
deriving DecidableEq, Repr

/-- The `realtime` table contents. -/
def Ledger := List LedgerRec

/-- Configuration fields consumed by `SocialPublisher.publish_socials`. -/
structure SPConfig where
  do_publish_socials : Bool
  disabled_services : List String
  skip_artists : List String
  skip_titles : List String
deriving DecidableEq, Repr

/-- `SocialPublisher._was_previously_published`: the `SELECT` on the
`realtime` table matching service, artist and title exactly. -/
def was_previously_published (db : Ledger) (service artist title : String) : Bool :=
  db.any (fun r => r.service == service && r.artist == artist && r.title == title)

/-- `SocialPublisher._record_published`: `DELETE FROM realtime WHERE
service=?` then `INSERT` of the new row (row order in the list model is
irrelevant to the queries above). -/
def record_published (db : Ledger) (service artist title : String) (ts : Nat) :
    Ledger :=
  ⟨service, artist, title, ts⟩ :: db.filter (fun r => !(r.service == service))

/-- `SocialPublisher.publish_socials` for one service.

* `success` is the outcome of the Publisher capability
  (`self.services[service].publish(track_info)`); the services dict contains
  every enum member, so the `service in self.services` test always holds.
* The listener-count fetch defaults to 0 on failure and has no bearing on
  the ledger, so it is omitted.
* Returns the new ledger and whether the Publisher capability was invoked. -/
def publish_socials (cfg : SPConfig) (success : Bool) (ts : Nat) (db : Ledger)
    (service : SocialService) (artist title : String) : Ledger × Bool :=
  if !cfg.do_publish_socials then (db, false)
  else if service.value ∈ cfg.disabled_services then (db, false)
  else if was_previously_published db service.value artist title then (db, false)
  else if artist ∈ cfg.skip_artists then (db, false)
  else if title ∈ cfg.skip_titles then (db, false)
  else if success then (record_published db service.value artist title ts, true)
  else (db, true)

/-- At most one ledger row per service. -/
def singleSlot (db : Ledger) : Prop :=
  ∀ s : String, (List.countP (fun r => r.service == s) db) ≤ 1

/-! ## File stability detector (`src/handlers/file_handler.py`) -/

/-- The `FileState` dataclass. -/
structure FileState where
  size : Nat
  modification_time : Nat
  checksum : String
  last_processed : Nat
  content : String
deriving DecidableEq, Repr

/-- One observable view of the monitored file at a poll instant: whether the
path exists, its `stat` size and mtime, whether `read_text` succeeds (decode
errors), and the decoded content. -/
structure FSView where
  present : Bool
  size : Nat
  mtime : Nat
  readOk : Bool
  content : String
deriving DecidableEq, Repr

/-- `FTPAwareFileHandler._get_file_state`.  The md5 digest is modelled by the
content itself (an injective stand-in for the collision-free digest). -/
def get_file_state (min_file_size : Nat) (now : Nat) (f : FSView) :
    Option FileState :=
  if !f.present then none
  else if f.size < min_file_size then none
  else if !f.readOk then none
  else some { size := f.size, modification_time := f.mtime
            , checksum := f.content, last_processed := now
            , content := f.content }

/-- `FTPAwareFileHandler._states_match`: equality on size and checksum. -/
def states_match (s1 s2 : FileState) : Bool :=
  s1.size == s2.size && s1.checksum == s2.checksum

/-- One iteration of the `_wait_for_file_stability` polling loop: given the
previous successful snapshot and the consecutive-match counter, produce the
updated pair.  A `None` read keeps the previous baseline and resets the
counter; a successful read increments on match, else resets and rebaselines. -/
def stability_step (min_file_size now : Nat) (f : FSView)
    (prev : Option FileState) (cnt : Nat) : Option FileState × Nat :=
  match get_file_state min_file_size now f with
  | none => (prev, 0)
  | some cur =>
    match prev with
    | some p => if states_match p cur then (some cur, cnt + 1) else (some cur, 0)
    | none => (some cur, 0)

/-! ## Watch loop forced periodic check (`start_file_watch` / `main.py`) -/

/-- The `reload_callback` passed to `start_file_watch` by `main`:
`lambda content: reload_playout_file(playout_data, state, db_handler)`.
Modelled at the Python call level: applied to an argument list, it runs the
body only when given exactly one positional argument, and raises `TypeError`
otherwise. -/
def reload_callback (args : List String) : Except String Unit :=
  if args.length = 1 then .ok ()
  else .error "TypeError: <lambda>() missing 1 required positional argument: 'content'"

/-- The watch-loop fields of the `state` dict owned by `main`. -/
structure WatchState where
  last_processed_time : Nat
  current_track_duration : Nat
deriving DecidableEq, Repr

/-- The trigger condition of the forced periodic check:
`current_time > state["last_processed_time"] + state["current_track_duration"]
+ config.event_timeout`. -/
def forced_check_due (now : Nat) (st : WatchState) (event_timeout : Nat) : Bool :=
  st.last_processed_time + st.current_track_duration + event_timeout < now

/-- One tick of the `while True` loop in `start_file_watch`, restricted to the
forced periodic check (filesystem events are delivered through the observer,
not this loop).  When due, `reload_callback()` is invoked with no arguments
inside `try/except`; the `finally` block always refreshes
`last_processed_time`.  The boolean reports whether the reload-and-process
pipeline actually ran. -/
def watch_tick (now event_timeout : Nat) (st : WatchState) : WatchState × Bool :=
  if forced_check_due now st event_timeout then
    match reload_callback [] with
    | .ok _ => ({ st with last_processed_time := now }, true)
    | .error _ => ({ st with last_processed_time := now }, false)
  else (st, false)

/-! ## Content normalizer (`src/utils/json_utils.py`)

`sanitize_json` is four `re.sub` passes.  Each regex here is deterministic
(every starred or plus-quantified class is followed by a character excluded
from the class, so greedy matching never backtracks into a different match),
which lets each pass be written as a left-to-right scan:  on a failed match
the scan advances one character, on a success it resumes after the match,
exactly as `re.sub` does. -/

/-- `value.replace('\\', r'\\')` — double every backslash. -/
def escBackslash : List Char → List Char
  | [] => []
  | c :: cs =>
    if c == '\\' then '\\' :: '\\' :: escBackslash cs else c :: escBackslash cs

/-- `value.replace('"', r'\"')` — escape every double quote. -/
def escQuote : List Char → List Char
  | [] => []
  | c :: cs =>
    if c == '"' then '\\' :: '"' :: escQuote cs else c :: escQuote cs

/-- The `_fix_values` replacement applied to the value group. -/
def fixValue (v : List Char) : List Char := escQuote (escBackslash v)

/-- One attempted match of `r'"([^"]+)": "([^"]+)"'` at the head of the
input: returns the key group, the value group and the rest of the input
after the match. -/
def matchPair : List Char → Option (List Char × List Char × List Char)
  | [] => none
  | c :: cs =>
    if c == '"' then
      let k := cs.takeWhile (fun x => !(x == '"'))
      match cs.dropWhile (fun x => !(x == '"')) with
      | q1 :: c1 :: c2 :: q2 :: cs2 =>
        if q1 == '"' && c1 == ':' && c2 == ' ' && q2 == '"' && !(k == []) then
          let v := cs2.takeWhile (fun x => !(x == '"'))
          match cs2.dropWhile (fun x => !(x == '"')) with
          | q3 :: rest =>
            if q3 == '"' && !(v == []) then some (k, v, rest) else none
          | [] => none
        else none
      | _ => none
    else none

/-- The matched text rebuilt with the escaped value:
`f'"{key}": "{value}"'`. -/
def pairOut (k v : List Char) : List Char :=
  '"' :: k ++ '"' :: ':' :: ' ' :: '"' :: fixValue v ++ ['"']

/-- `re.sub(r'"([^"]+)": "([^"]+)"', _fix_values, content)`, fuelled scan
(fuel at least the input length always suffices: both continuations are on
strictly shorter suffixes). -/
def fixPairsF : Nat → List Char → List Char
  | 0, l => l
  | _ + 1, [] => []
  | n + 1, c :: cs =>
    match matchPair (c :: cs) with
    | some (k, v, rest) => pairOut k v ++ fixPairsF n rest
    | none => c :: fixPairsF n cs

/-- The first `re.sub` pass of `sanitize_json`. -/
def fixPairs (l : List Char) : List Char := fixPairsF l.length l

/-- `re.sub(r'[\x00-\x1F\x7F]', '', content)` — strip control characters. -/
def stripCtl (l : List Char) : List Char :=
  l.filter (fun c => !(c.toNat ≤ 31 || c.toNat == 127))

/-- `re.sub(r',\s*CLOSE', 'CLOSE', content)` for `CLOSE` one of `}` `]`,
fuelled scan. -/
def stripCommaCloseF (close : Char) : Nat → List Char → List Char
  | 0, l => l
  | _ + 1, [] => []
  | n + 1, c :: cs =>
    if c == ',' then
      match cs.dropWhile pyIsSpace with
      | d :: rest2 =>
        if d == close then close :: stripCommaCloseF close n rest2
        else c :: stripCommaCloseF close n cs
      | [] => c :: stripCommaCloseF close n cs
    else c :: stripCommaCloseF close n cs

/-- One trailing-comma `re.sub` pass of `sanitize_json`. -/
def stripCommaClose (close : Char) (l : List Char) : List Char :=
  stripCommaCloseF close l.length l

/-- `sanitize_json` of `src/utils/json_utils.py`: the four passes in
program order. -/
def sanitize_json (s : String) : String :=
  String.mk (stripCommaClose ']' (stripCommaClose '}' (stripCtl (fixPairs s.data))))

/-! A strict JSON decoder, modelling `json.loads` restricted to the shape of
the playout file: a single object whose values are strings (escape sequences
other than `\uXXXX` supported; raw control characters rejected, as in
`json.loads` strict mode).  `none` models `json.JSONDecodeError`. -/

/-- JSON insignificant whitespace. -/
def jsonWs (c : Char) : Bool :=
  c == ' ' || c == '\t' || c == '\n' || c == '\r'

/-- Skip insignificant whitespace. -/
def skipWs (l : List Char) : List Char := l.dropWhile jsonWs

/-- Decoding of a single escape character (`\uXXXX` unsupported in this
model). -/
def escChar (e : Char) : Option Char :=
  if e == '"' then some '"'
  else if e == '\\' then some '\\'
  else if e == '/' then some '/'
  else if e == 'n' then some '\n'
  else if e == 't' then some '\t'
  else if e == 'r' then some '\r'
  else if e == 'b' then some (Char.ofNat 8)
  else if e == 'f' then some (Char.ofNat 12)
  else none

/-- Scanner for a JSON string body; the Bool records a pending backslash. -/
def strBodyS : Bool → List Char → Option (List Char × List Char)
  | _, [] => none
  | true, e :: cs =>
    match escChar e with
    | none => none
    | some d =>
      match strBodyS false cs with
      | none => none
      | some (s, r) => some (d :: s, r)
  | false, c :: cs =>
    if c == '"' then some ([], cs)
    else if c == '\\' then strBodyS true cs
    else if c.toNat ≤ 31 then none
    else
      match strBodyS false cs with
      | none => none
      | some (s, r) => some (c :: s, r)

/-- Decode a JSON string body (after the opening quote): returns the decoded
characters and the input after the closing quote. -/
def strBody (l : List Char) : Option (List Char × List Char) := strBodyS false l

/-- Parse a JSON string token at the head of the input. -/
def parseJString (l : List Char) : Option (List Char × List Char) :=
  match l with
  | c :: cs => if c == '"' then strBody cs else none
  | [] => none

/-- Parse one or more `"key": "value"` members separated by commas, leaving
the input positioned at the closing brace.  Fuel bounds the number of
members; the input length plus one always suffices. -/
def parsePairsF : Nat → List Char → Option (List (String × String) × List Char)
  | 0, _ => none
  | fuel + 1, l =>
    match parseJString l with
    | none => none
    | some (k, r1) =>
      match skipWs r1 with
      | [] => none
      | c :: r3 =>
        if c == ':' then
          match parseJString (skipWs r3) with
          | none => none
          | some (v, r5) =>
            match skipWs r5 with
            | [] => none
            | c2 :: r7 =>
              if c2 == ',' then
                match parsePairsF fuel (skipWs r7) with
                | none => none
                | some (ps, rest) => some ((String.mk k, String.mk v) :: ps, rest)
              else some ([(String.mk k, String.mk v)], c2 :: r7)
        else none

/-- Parse a complete flat string-valued JSON object (with nothing but
whitespace after it). -/
def parseFlatObj (l : List Char) : Option (List (String × String)) :=
  match skipWs l with
  | [] => none
  | c :: r =>
    if c == '{' then
      match skipWs r with
      | [] => none
      | c2 :: r2 =>
        if c2 == '}' then
          if skipWs r2 = [] then some [] else none
        else
          match parsePairsF (r.length + 1) (c2 :: r2) with
          | none => none
          | some (ps, rest) =>
            match rest with
            | c3 :: r3 =>
              if c3 == '}' then
                if skipWs r3 = [] then some ps else none
              else none
            | [] => none
    else none

/-- `safe_json_loads`: strict decode first, on failure sanitize and retry
once, `None` on a second failure. -/
def safe_json_loads (s : String) : Option (List (String × String)) :=
  match parseFlatObj s.data with
  | some ps => some ps
  | none => parseFlatObj (sanitize_json s).data

example :
    safe_json_loads "\x7b\"artist\": \"Artist A\", \"title\": \"Song B\",\x7d" =
    some [("artist", "Artist A"), ("title", "Song B")] := rfl

example :
    safe_json_loads "\x7b\"a\": \"x \"y\" z\"\x7d" = none := rfl

example : sanitize_json "\x7b\"a\": \"x \"y\" z\"\x7d" = "\x7b\"a\": \"x \"y\" z\"\x7d" := rfl

example :
    safe_json_loads "\x7b\"path\": \"C:\\dir\", \x7d" =
    some [("path", "C:\\dir")] := rfl

/-! ## Helper lemmas -/

theorem exceptBind_ok {ε α β : Type} (a : α) (f : α → Except ε β) :
    (Except.ok a >>= f : Except ε β) = f a := rfl

theorem exceptBind_err {ε α β : Type} (e : ε) (f : α → Except ε β) :
    (Except.error e >>= f : Except ε β) = Except.error e := rfl

theorem countP_filter_le {α : Type} (p q : α → Bool) (l : List α) :
    List.countP p (l.filter q) ≤ List.countP p l := by
  induction l with
  | nil => simp
  | cons a l ih =>
    by_cases hq : q a = true
    · by_cases hp : p a = true <;>
        simp [List.filter_cons, List.countP_cons, hq, hp] <;> omega
    · simp only [Bool.not_eq_true] at hq
      by_cases hp : p a = true <;>
        simp [List.filter_cons, List.countP_cons, hq, hp] <;> omega

/-! ## C2 -/

/-- **C2.** Publishing the same (service, artist, title) twice in succession —
publishing globally enabled, the service enabled, the track in no skip list,
not already in the ledger, and the Publisher capability succeeding — invokes
the Publisher capability exactly once (the second call short-circuits on the
ledger lookup), and the single-slot ledger invariant (at most one `realtime`
row per service) is preserved by both calls. -/
theorem c2_publish_dedup_single_slot (cfg : SPConfig) (db : Ledger)
    (service : SocialService) (artist title : String) (ts1 ts2 : Nat)
    (hen : cfg.do_publish_socials = true)
    (hdis : service.value ∉ cfg.disabled_services)
    (hsa : artist ∉ cfg.skip_artists)
    (hst : title ∉ cfg.skip_titles)
    (hnew : was_previously_published db service.value artist title = false) :
    (publish_socials cfg true ts1 db service artist title).2 = true ∧
    (publish_socials cfg true ts2
        (publish_socials cfg true ts1 db service artist title).1
        service artist title).2 = false ∧
    (singleSlot db →
      singleSlot (publish_socials cfg true ts1 db service artist title).1 ∧
      singleSlot (publish_socials cfg true ts2
        (publish_socials cfg true ts1 db service artist title).1
        service artist title).1) := by
  have h1 : publish_socials cfg true ts1 db service artist title =
      (record_published db service.value artist title ts1, true) := by
    simp [publish_socials, hen, hdis, hsa, hst, hnew]
  have hprev : was_previously_published
      (record_published db service.value artist title ts1)
      service.value artist title = true := by
    simp [was_previously_published, record_published]
  have h2 : publish_socials cfg true ts2
      (record_published db service.value artist title ts1)
      service artist title =
      (record_published db service.value artist title ts1, false) := by
    simp [publish_socials, hen, hdis, hprev]
  refine ⟨by simp [h1], by simp [h1, h2], fun hdb => ?_⟩
  have hrec : singleSlot (record_published db service.value artist title ts1) := by
    intro s
    by_cases hs : service.value = s
    · have : List.countP (fun r => r.service == s)
          (db.filter (fun r => !(r.service == service.value))) = 0 := by
        rw [List.countP_eq_zero]
        intro r hr
        have hmem := List.of_mem_filter hr
        simp only [Bool.not_eq_true', beq_eq_false_iff_ne, ne_eq] at hmem
        simp only [beq_iff_eq]
        rw [← hs]
        exact hmem
      simp [record_published, List.countP_cons, hs, this]
    · have hcnt := countP_filter_le (fun r => r.service == s)
        (fun r => !(r.service == service.value)) db
      have : List.countP (fun r => r.service == s) db ≤ 1 := hdb s
      simp only [record_published, List.countP_cons]
      have hne : (LedgerRec.service ⟨service.value, artist, title, ts1⟩ == s) = false := by
        simp [hs]
      simp [hne]
      omega
  exact ⟨by rw [h1]; exact hrec, by rw [h1, h2]; exact hrec⟩

/-- Witness for C2 at a concrete input. -/
theorem c2_publish_dedup_single_slot_witness :
    (publish_socials ⟨true, [], [], []⟩ true 1 [] .lastfm "A" "T").2 = true ∧
    (publish_socials ⟨true, [], [], []⟩ true 2
        (publish_socials ⟨true, [], [], []⟩ true 1 [] .lastfm "A" "T").1
        .lastfm "A" "T").2 = false ∧
    (singleSlot [] →
      singleSlot (publish_socials ⟨true, [], [], []⟩ true 1 [] .lastfm "A" "T").1 ∧
      singleSlot (publish_socials ⟨true, [], [], []⟩ true 2
        (publish_socials ⟨true, [], [], []⟩ true 1 [] .lastfm "A" "T").1
        .lastfm "A" "T").1) :=
  c2_publish_dedup_single_slot ⟨true, [], [], []⟩ [] .lastfm "A" "T" 1 2
    rfl (by simp) (by simp) (by simp) rfl

/-! ## C4 -/

/-- **C4.** Evidence of the defect: whenever the forced-periodic-check
condition holds, `start_file_watch` invokes `reload_callback()` with no
arguments, but the callback installed by `main` is a one-parameter lambda, so
the call raises `TypeError` (swallowed by the surrounding `except`): the
reload-and-process pipeline never runs, and the tick merely refreshes
`last_processed_time`.  By contrast the watcher path, which passes one
argument, would run the pipeline. -/
theorem c4_forced_check_never_reloads (now event_timeout : Nat) (st : WatchState)
    (hdue : forced_check_due now st event_timeout = true) :
    watch_tick now event_timeout st = ({ st with last_processed_time := now }, false) ∧
    reload_callback [] =
      .error "TypeError: <lambda>() missing 1 required positional argument: 'content'" ∧
    ∀ content, reload_callback [content] = .ok () := by
  refine ⟨?_, rfl, fun content => rfl⟩
  simp [watch_tick, hdue, reload_callback]

/-- Witness for C4 at a concrete input. -/
theorem c4_forced_check_never_reloads_witness :
    watch_tick 10 0 ⟨0, 0⟩ = ({ last_processed_time := 10, current_track_duration := 0 }, false) ∧
    reload_callback [] =
      .error "TypeError: <lambda>() missing 1 required positional argument: 'content'" ∧
    ∀ content, reload_callback [content] = .ok () :=
  c4_forced_check_never_reloads 10 0 ⟨0, 0⟩ rfl

/-! ## C7 -/

/-- **C7 (counterexample).** A read of an existing, large-enough, readable
file whose content is unparseable even after normalization does *not* fail
softly: `_get_file_state` returns a snapshot (content is never parsed during
the stability wait), so this read contributes to the stability count,
contradicting the claim that unparseable content resets the counter. -/
theorem c7_unparseable_counts_counterexample :
    (get_file_state 50 7
      ⟨true, 60, 3, true, "xxxxxxxxxxxxxxxxxxxxxxxxxxxxxxxxxxxxxxxxxxxxxxxxxxxxxxxxxxxx"⟩).isSome
      = true ∧
    safe_json_loads "xxxxxxxxxxxxxxxxxxxxxxxxxxxxxxxxxxxxxxxxxxxxxxxxxxxxxxxxxxxx" = none ∧
    (stability_step 50 7
      ⟨true, 60, 3, true, "xxxxxxxxxxxxxxxxxxxxxxxxxxxxxxxxxxxxxxxxxxxxxxxxxxxxxxxxxxxx"⟩
      (get_file_state 50 6
        ⟨true, 60, 3, true, "xxxxxxxxxxxxxxxxxxxxxxxxxxxxxxxxxxxxxxxxxxxxxxxxxxxxxxxxxxxx"⟩)
      0).2 = 1 :=
  ⟨rfl, rfl, rfl⟩

/-- **C7 (amended).** In the stability-wait loop a read attempt fails softly
in exactly three cases: the file does not exist, its size is below
`min_file_size`, or reading/decoding its text raises; parseability under the
Content Normalizer is never checked at this stage.  A soft failure keeps the
previous comparison baseline and resets the consecutive-match counter to 0. -/
theorem c7_soft_fail_exactly_three_cases (min_file_size now : Nat) (f : FSView) :
    (get_file_state min_file_size now f = none ↔
      (f.present = false ∨ f.size < min_file_size ∨ f.readOk = false)) ∧
    (get_file_state min_file_size now f = none →
      ∀ prev cnt, stability_step min_file_size now f prev cnt = (prev, 0)) := by
  constructor
  · unfold get_file_state
    by_cases h1 : f.present = false <;> by_cases h2 : f.size < min_file_size <;>
      by_cases h3 : f.readOk = false <;>
      simp_all
  · intro h prev cnt
    simp [stability_step, h]

/-- Witness for C7's amended theorem at a concrete input. -/
theorem c7_soft_fail_exactly_three_cases_witness :
    (get_file_state 50 7 ⟨false, 60, 3, true, "x"⟩ = none ↔
      ((false : Bool) = false ∨ 60 < 50 ∨ (true : Bool) = false)) ∧
    stability_step 50 7 ⟨false, 60, 3, true, "x"⟩ none 4 = (none, 0) :=
  ⟨(c7_soft_fail_exactly_three_cases 50 7 ⟨false, 60, 3, true, "x"⟩).1,
   (c7_soft_fail_exactly_three_cases 50 7 ⟨false, 60, 3, true, "x"⟩).2 rfl none 4⟩

/-! ## C6 -/

/-- **C6.** Processing a placeholder (non-song) Track leaves the session
state entirely unchanged — in particular `tracks_played`,
`last_program_name` and `last_processed_checksum` — and performs exactly the
default-artwork update and the web-snapshot regeneration. -/
theorem c6_placeholder_frame (cfg : PConfig) (now : Nat) (nowIso fresh : String)
    (data : JObj) (st : PState) (prog pres : String)
    (hval : TrackInfo.is_valid_song data = .ok false)
    (hprog : getStrOr data "program" "Unknown Program" = .ok prog)
    (hpres : getStrOr data "presenter" "" = .ok pres) :
    process_new_track_data cfg now nowIso fresh data st =
      (st, [.copyArtwork "default-art.jpg", .writePlaylist "default-art.jpg"]) := by
  have hfj : TrackInfo.from_json fresh nowIso data =
      .ok { artist := "", title := "", album := "", publisher := "", ISRC := ""
          , image := "default-art.jpg", publish_image := "default-art.jpg"
          , start_time := nowIso, duration := 0
          , program_title := pyStrip prog, presenter := pyStrip pres } := by
    unfold TrackInfo.from_json
    rw [hval, exceptBind_ok]
    simp [hprog, hpres, exceptBind_ok]
  unfold process_new_track_data
  rw [hfj]
  rfl

/-- Witness for C6 at a concrete input. -/
theorem c6_placeholder_frame_witness :
    process_new_track_data ⟨[], []⟩ 5 "now" "0123456789abcdef0123456789abcdef"
      [("program", .str "Morning Show")] (initState 3 0) =
      ((initState 3 0),
       [.copyArtwork "default-art.jpg", .writePlaylist "default-art.jpg"]) :=
  c6_placeholder_frame ⟨[], []⟩ 5 "now" "0123456789abcdef0123456789abcdef"
    [("program", .str "Morning Show")] (initState 3 0) "Morning Show" ""
    rfl rfl rfl

/-! ## C9 -/

/-- **C9 (counterexample).** A valid-song record whose `duration` field is a
non-numeric string makes extraction raise `ValueError` (`int('abc')`) instead
of defaulting the duration to 0 — the claim's "never fails on such a defect"
is false. -/
theorem c9_nonnumeric_duration_raises_counterexample :
    TrackInfo.from_json "0123456789abcdef0123456789abcdef" "now"
      [("artist", .str "A"), ("title", .str "T"), ("duration", .str "abc")] =
      .error "ValueError: invalid literal for int()" ∧
    TrackInfo.is_valid_song
      [("artist", .str "A"), ("title", .str "T"), ("duration", .str "abc")] = .ok true :=
  ⟨rfl, rfl⟩

/-- **C9 (amended).** Extraction sets the duration to 0 when the input's
`duration` field is absent; when the field is present but non-numeric,
`int()` raises and extraction of the whole record fails (the top-level
handler of `process_new_track_data` then abandons the snapshot with no state
change and no side effects). -/
theorem c9_duration_absent_default_nonnumeric_error (d : JObj) (fresh nowIso : String) :
    (jget d "duration" = none →
      ∀ tr, TrackInfo.from_json fresh nowIso d = .ok tr → tr.duration = 0) ∧
    (∀ s, jget d "duration" = some (.str s) → pyIntOfString s = none →
      TrackInfo.is_valid_song d = .ok true →
      (∀ tr, TrackInfo.from_json fresh nowIso d ≠ .ok tr) ∧
      ∀ cfg now st,
        process_new_track_data cfg now nowIso fresh d st = (st, [])) := by
  constructor
  · intro habs tr hok
    unfold TrackInfo.from_json at hok
    cases hv : TrackInfo.is_valid_song d with
    | error e => rw [hv, exceptBind_err] at hok; exact absurd hok (by simp)
    | ok b =>
      rw [hv, exceptBind_ok] at hok
      cases b with
      | false =>
        simp only [Bool.cond_false] at hok
        cases hp : getStrOr d "program" "Unknown Program" with
        | error e => rw [hp, exceptBind_err] at hok; exact absurd hok (by simp)
        | ok prog =>
          rw [hp, exceptBind_ok] at hok
          cases hq : getStrOr d "presenter" "" with
          | error e => rw [hq, exceptBind_err] at hok; exact absurd hok (by simp)
          | ok pres =>
            rw [hq, exceptBind_ok] at hok
            cases hok
            rfl
      | true =>
        simp only [Bool.cond_true] at hok
        have hdur : getDuration d = .ok 0 := by simp [getDuration, habs]
        cases ha : getStrOr d "artist" "Unknown Artist" with
        | error e => rw [ha, exceptBind_err] at hok; exact absurd hok (by simp)
        | ok artist =>
        rw [ha, exceptBind_ok] at hok
        cases hb : getStrOr d "title" "Unknown Title" with
        | error e => rw [hb, exceptBind_err] at hok; exact absurd hok (by simp)
        | ok title =>
        rw [hb, exceptBind_ok] at hok
        cases hc : getStrOr d "album" "Unknown Album" with
        | error e => rw [hc, exceptBind_err] at hok; exact absurd hok (by simp)
        | ok album =>
        rw [hc, exceptBind_ok] at hok
        cases hd2 : getStrOr d "publisher" "" with
        | error e => rw [hd2, exceptBind_err] at hok; exact absurd hok (by simp)
        | ok publisher =>
        rw [hd2, exceptBind_ok] at hok
        cases he : getStrOr d "ISRC" "" with
        | error e => rw [he, exceptBind_err] at hok; exact absurd hok (by simp)
        | ok isrc =>
        rw [he, exceptBind_ok] at hok
        cases hf : getStrOr d "image" "art-00.jpg" with
        | error e => rw [hf, exceptBind_err] at hok; exact absurd hok (by simp)
        | ok image =>
        rw [hf, exceptBind_ok] at hok
        cases hg : getStrOr d "starttime" nowIso with
        | error e => rw [hg, exceptBind_err] at hok; exact absurd hok (by simp)
        | ok starttime =>
        rw [hg, exceptBind_ok, hdur, exceptBind_ok] at hok
        cases hh : getStrOr d "program" "Unknown Program" with
        | error e => rw [hh, exceptBind_err] at hok; exact absurd hok (by simp)
        | ok prog =>
        rw [hh, exceptBind_ok] at hok
        cases hi : getStrOr d "presenter" "" with
        | error e => rw [hi, exceptBind_err] at hok; exact absurd hok (by simp)
        | ok pres =>
        rw [hi, exceptBind_ok] at hok
        cases hok
        rfl
  · intro s hdur hbad hvalid
    have herr : ∀ tr, TrackInfo.from_json fresh nowIso d ≠ .ok tr := by
      intro tr hok
      unfold TrackInfo.from_json at hok
      rw [hvalid, exceptBind_ok] at hok
      simp only [Bool.cond_true] at hok
      have hdur' : getDuration d = .error "ValueError: invalid literal for int()" := by
        simp [getDuration, hdur, pyInt, hbad]
      cases ha : getStrOr d "artist" "Unknown Artist" with
      | error e => rw [ha, exceptBind_err] at hok; exact absurd hok (by simp)
      | ok artist =>
      rw [ha, exceptBind_ok] at hok
      cases hb : getStrOr d "title" "Unknown Title" with
      | error e => rw [hb, exceptBind_err] at hok; exact absurd hok (by simp)
      | ok title =>
      rw [hb, exceptBind_ok] at hok
      cases hc : getStrOr d "album" "Unknown Album" with
      | error e => rw [hc, exceptBind_err] at hok; exact absurd hok (by simp)
      | ok album =>
      rw [hc, exceptBind_ok] at hok
      cases hd2 : getStrOr d "publisher" "" with
      | error e => rw [hd2, exceptBind_err] at hok; exact absurd hok (by simp)
      | ok publisher =>
      rw [hd2, exceptBind_ok] at hok
      cases he : getStrOr d "ISRC" "" with
      | error e => rw [he, exceptBind_err] at hok; exact absurd hok (by simp)
      | ok isrc =>
      rw [he, exceptBind_ok] at hok
      cases hf : getStrOr d "image" "art-00.jpg" with
      | error e => rw [hf, exceptBind_err] at hok; exact absurd hok (by simp)
      | ok image =>
      rw [hf, exceptBind_ok] at hok
      cases hg : getStrOr d "starttime" nowIso with
      | error e => rw [hg, exceptBind_err] at hok; exact absurd hok (by simp)
      | ok starttime =>
      rw [hg, exceptBind_ok, hdur', exceptBind_err] at hok
      exact absurd hok (by simp)
    refine ⟨herr, fun cfg now st => ?_⟩
    unfold process_new_track_data
    cases hfj : TrackInfo.from_json fresh nowIso d with
    | error e => rfl
    | ok tr => exact absurd hfj (herr tr)

/-- Witness for C9's amended theorem at concrete inputs. -/
theorem c9_duration_absent_default_nonnumeric_error_witness :
    (TrackInfo.from_json "0123456789abcdef0123456789abcdef" "now"
        [("artist", .str "A"), ("title", .str "T")] =
        .ok { artist := "A", title := "T", album := "Unknown Album"
            , publisher := "", ISRC := "", image := "art-00.jpg"
            , publish_image := "0123456789abcdef0123456789abcdef.jpg"
            , start_time := "now", duration := 0
            , program_title := "Unknown Program", presenter := "" } → (0 : Int) = 0) ∧
    process_new_track_data ⟨[], []⟩ 9 "now" "0123456789abcdef0123456789abcdef"
      [("artist", .str "A"), ("title", .str "T"), ("duration", .str "abc")]
      (initState 0 0) = ((initState 0 0), []) :=
  ⟨fun h => (c9_duration_absent_default_nonnumeric_error
      [("artist", .str "A"), ("title", .str "T")]
      "0123456789abcdef0123456789abcdef" "now").1 rfl _ h,
   ((c9_duration_absent_default_nonnumeric_error
      [("artist", .str "A"), ("title", .str "T"), ("duration", .str "abc")]
      "0123456789abcdef0123456789abcdef" "now").2 "abc" rfl rfl rfl).2
      ⟨[], []⟩ 9 (initState 0 0)⟩

/-! ## C5 -/

/-- **C5.** Evidence of the defect: the program-transition updates (counter
reset, `program_start_time`, `last_program_name`, notification) are nested
inside `if state["last_program_name"] is not None`, and `last_program_name`
starts as `None` and is assigned nowhere else — so from a session whose
`last_program_name` is unset, processing any snapshot leaves it unset and
never emits a program-transition notification, contradicting the claim that
a program change (including the initial one) updates the program state. -/
theorem c5_program_transition_never_fires (cfg : PConfig) (now : Nat)
    (nowIso fresh : String) (data : JObj) (st : PState)
    (h : st.last_program_name = none) :
    (process_new_track_data cfg now nowIso fresh data st).1.last_program_name = none ∧
    ∀ p, Effect.programNotify p ∉ (process_new_track_data cfg now nowIso fresh data st).2 := by
  unfold process_new_track_data
  cases hfj : TrackInfo.from_json fresh nowIso data with
  | error e => simp [h]
  | ok np =>
    by_cases hph : (np.publish_image == "default-art.jpg") = true
    · simp [hph, h]
    · simp only [hph, Bool.false_eq_true, if_false]
      by_cases hdup :
          (st.last_processed_checksum == some (np.artist ++ ":" ++ np.title)) = true
      · simp [hdup, h]
      · simp only [hdup, Bool.false_eq_true, if_false]
        unfold processValidTrack
        simp only [h]
        have hcond : (!(some (pyStrip np.program_title) == (none : Option String))) = true := by
          simp
        simp only [hcond, if_true, beq_self_eq_true, Bool.not_true, Bool.true_eq_false,
          if_false, Bool.false_eq_true]
        cases hlast : st.last_published_image with
        | none =>
          by_cases hsa : np.artist ∈ cfg.skip_artists
          · simp [hsa, h]
          · by_cases hst : np.title ∈ cfg.skip_titles
            · simp [hsa, hst, h]
            · simp [hsa, hst, h, serviceNames]
        | some prev =>
          by_cases hsa : np.artist ∈ cfg.skip_artists
          · simp [hsa, h]
          · by_cases hst : np.title ∈ cfg.skip_titles
            · simp [hsa, hst, h]
            · simp [hsa, hst, h, serviceNames]

/-- Witness for C5 at a concrete input: a fresh session processing a track
of the "Morning Show" program neither records the program name nor emits a
notification. -/
theorem c5_program_transition_never_fires_witness :
    (process_new_track_data ⟨[], []⟩ 50 "now" "0123456789abcdef0123456789abcdef"
      [("artist", .str "A"), ("title", .str "T"), ("program", .str "Morning Show")]
      (initState 0 0)).1.last_program_name = none ∧
    ∀ p, Effect.programNotify p ∉
      (process_new_track_data ⟨[], []⟩ 50 "now" "0123456789abcdef0123456789abcdef"
        [("artist", .str "A"), ("title", .str "T"), ("program", .str "Morning Show")]
        (initState 0 0)).2 :=
  c5_program_transition_never_fires ⟨[], []⟩ 50 "now"
    "0123456789abcdef0123456789abcdef"
    [("artist", .str "A"), ("title", .str "T"), ("program", .str "Morning Show")]
    (initState 0 0) rfl

/-! ## C3 -/

/-- **C3 (counterexample).** A non-placeholder, non-duplicate track whose
artist is in the skip list is processed with *no* web-snapshot regeneration
(and no artwork copy): the claim's "the web snapshot is regenerated with the
new track's metadata regardless of skip status" is false — the skip branch
returns before `copy_album_artwork`/`write_playlist_json`. -/
theorem c3_skip_no_snapshot_counterexample :
    TrackInfo.is_valid_song
      [("artist", .str "SkipMe"), ("title", .str "Song"), ("program", .str "P")]
      = .ok true ∧
    ¬ ∃ name, Effect.writePlaylist name ∈
      (process_new_track_data ⟨["SkipMe"], []⟩ 100 "now"
        "0123456789abcdef0123456789abcdef"
        [("artist", .str "SkipMe"), ("title", .str "Song"), ("program", .str "P")]
        (initState 0 0)).2 := by
  refine ⟨rfl, ?_⟩
  intro ⟨name, hmem⟩
  have hev : (process_new_track_data ⟨["SkipMe"], []⟩ 100 "now"
      "0123456789abcdef0123456789abcdef"
      [("artist", .str "SkipMe"), ("title", .str "Song"), ("program", .str "P")]
      (initState 0 0)).2 = [] := rfl
  rw [hev] at hmem
  exact absurd hmem (List.not_mem_nil _)

/-- Effects allowed on the skip path: anything except publication dispatch,
artwork copy and web-snapshot write. -/
def noPublishArtworkWeb (effs : List Effect) : Prop :=
  ∀ e ∈ effs, (∀ s a t, e ≠ .publishSocials s a t) ∧
    (∀ i, e ≠ .copyArtwork i) ∧ (∀ i, e ≠ .writePlaylist i)

/-- **C3 (amended).** For every non-placeholder, non-duplicate track whose
artist or title is in the configured skip lists, processing stops at the
skip check: no publication dispatch, no artwork copy and no web-snapshot
regeneration occur (only the earlier state updates and the deletion of the
previous track's artwork file); `last_published_image` is left unchanged. -/
theorem c3_skip_stops_before_web_update (cfg : PConfig) (now : Nat)
    (nowIso fresh : String) (data : JObj) (st : PState) (np : TrackInfo)
    (hfj : TrackInfo.from_json fresh nowIso data = .ok np)
    (hph : (np.publish_image == "default-art.jpg") = false)
    (hdup : (st.last_processed_checksum == some (np.artist ++ ":" ++ np.title)) = false)
    (hskip : np.artist ∈ cfg.skip_artists ∨ np.title ∈ cfg.skip_titles) :
    noPublishArtworkWeb (process_new_track_data cfg now nowIso fresh data st).2 ∧
    (process_new_track_data cfg now nowIso fresh data st).1.last_processed_checksum
      = some (np.artist ++ ":" ++ np.title) ∧
    (process_new_track_data cfg now nowIso fresh data st).1.last_published_image
      = st.last_published_image := by
  have hred : process_new_track_data cfg now nowIso fresh data st =
      processValidTrack cfg now np st := by
    unfold process_new_track_data
    rw [hfj]
    simp only [hph, Bool.false_eq_true, if_false, hdup]
  rw [hred]
  unfold processValidTrack
  have hr2skip : ∀ (r2 : PState × List Effect),
      (r2.1.last_processed_checksum = some (np.artist ++ ":" ++ np.title) ∧
       r2.1.last_published_image = st.last_published_image ∧
       noPublishArtworkWeb r2.2) →
      noPublishArtworkWeb
        (if np.artist ∈ cfg.skip_artists then
          ({ r2.1 with tracks_played := r2.1.tracks_played + 1 }, r2.2)
         else if np.title ∈ cfg.skip_titles then
          ({ r2.1 with tracks_played := r2.1.tracks_played + 1 }, r2.2)
         else
          ({ r2.1 with tracks_played := r2.1.tracks_played + 1
                     , last_published_image := some np.publish_image },
           r2.2 ++ serviceNames.map (fun s => Effect.publishSocials s np.artist np.title)
               ++ [Effect.copyArtwork np.publish_image, Effect.writePlaylist np.publish_image])).2 ∧
      (if np.artist ∈ cfg.skip_artists then
          ({ r2.1 with tracks_played := r2.1.tracks_played + 1 }, r2.2)
       else if np.title ∈ cfg.skip_titles then
          ({ r2.1 with tracks_played := r2.1.tracks_played + 1 }, r2.2)
       else
          ({ r2.1 with tracks_played := r2.1.tracks_played + 1
                     , last_published_image := some np.publish_image },
           r2.2 ++ serviceNames.map (fun s => Effect.publishSocials s np.artist np.title)
               ++ [Effect.copyArtwork np.publish_image, Effect.writePlaylist np.publish_image])).1.last_processed_checksum
        = some (np.artist ++ ":" ++ np.title) ∧
      (if np.artist ∈ cfg.skip_artists then
          ({ r2.1 with tracks_played := r2.1.tracks_played + 1 }, r2.2)
       else if np.title ∈ cfg.skip_titles then
          ({ r2.1 with tracks_played := r2.1.tracks_played + 1 }, r2.2)
       else
          ({ r2.1 with tracks_played := r2.1.tracks_played + 1
                     , last_published_image := some np.publish_image },
           r2.2 ++ serviceNames.map (fun s => Effect.publishSocials s np.artist np.title)
               ++ [Effect.copyArtwork np.publish_image, Effect.writePlaylist np.publish_image])).1.last_published_image
        = st.last_published_image := by
    intro r2 ⟨h1, h2, h3⟩
    rcases hskip with hsa | hst
    · simp [hsa, h1, h2, h3]
    · by_cases hsa : np.artist ∈ cfg.skip_artists
      · simp [hsa, h1, h2, h3]
      · simp [hsa, hst, h1, h2, h3]
  apply hr2skip
  refine ⟨?_, ?_, ?_⟩
  · by_cases hpn : (!(some (pyStrip np.program_title) == st.last_program_name)) = true
    · by_cases hnn : (!(st.last_program_name == (none : Option String))) = true
      · simp [hpn, hnn]
      · simp [hpn, hnn]
    · simp [hpn]
  · by_cases hpn : (!(some (pyStrip np.program_title) == st.last_program_name)) = true
    · by_cases hnn : (!(st.last_program_name == (none : Option String))) = true
      · simp [hpn, hnn]
      · simp [hpn, hnn]
    · simp [hpn]
  · by_cases hpn : (!(some (pyStrip np.program_title) == st.last_program_name)) = true
    · by_cases hnn : (!(st.last_program_name == (none : Option String))) = true
      · cases hlast : st.last_published_image <;>
          simp [hpn, hnn, hlast, noPublishArtworkWeb]
      · cases hlast : st.last_published_image <;>
          simp [hpn, hnn, hlast, noPublishArtworkWeb]
    · cases hlast : st.last_published_image <;>
        simp [hpn, hlast, noPublishArtworkWeb]

/-- Witness for C3's amended theorem at a concrete input. -/
theorem c3_skip_stops_before_web_update_witness :
    noPublishArtworkWeb
      (process_new_track_data ⟨[], ["SkipTitle"]⟩ 100 "now"
        "0123456789abcdef0123456789abcdef"
        [("artist", .str "B"), ("title", .str "SkipTitle")] (initState 0 0)).2 ∧
    (process_new_track_data ⟨[], ["SkipTitle"]⟩ 100 "now"
        "0123456789abcdef0123456789abcdef"
        [("artist", .str "B"), ("title", .str "SkipTitle")]
        (initState 0 0)).1.last_processed_checksum = some "B:SkipTitle" ∧
    (process_new_track_data ⟨[], ["SkipTitle"]⟩ 100 "now"
        "0123456789abcdef0123456789abcdef"
        [("artist", .str "B"), ("title", .str "SkipTitle")]
        (initState 0 0)).1.last_published_image = (initState 0 0).last_published_image :=
  c3_skip_stops_before_web_update ⟨[], ["SkipTitle"]⟩ 100 "now"
    "0123456789abcdef0123456789abcdef"
    [("artist", .str "B"), ("title", .str "SkipTitle")] (initState 0 0)
    { artist := "B", title := "SkipTitle", album := "Unknown Album"
    , publisher := "", ISRC := "", image := "art-00.jpg"
    , publish_image := "0123456789abcdef0123456789abcdef.jpg"
    , start_time := "now", duration := 0
    , program_title := "Unknown Program", presenter := "" }
    rfl rfl rfl (Or.inr (by simp))

/-! ## C1 -/

/-- A non-placeholder processed track always leaves the session fingerprint
equal to its own `artist:title` checksum. -/
theorem processValidTrack_checksum (cfg : PConfig) (now : Nat) (np : TrackInfo)
    (st : PState) :
    (processValidTrack cfg now np st).1.last_processed_checksum
      = some (np.artist ++ ":" ++ np.title) := by
  unfold processValidTrack
  by_cases hpn : (!(some (pyStrip np.program_title) == st.last_program_name)) = true <;>
    by_cases hnn : (!(st.last_program_name == (none : Option String))) = true <;>
    by_cases hsa : np.artist ∈ cfg.skip_artists <;>
    by_cases hst : np.title ∈ cfg.skip_titles <;>
    simp [hpn, hnn, hsa, hst]

/-- Every input of the run extracts (with its drawn uuid digest) to a
non-placeholder track with `artist:title` fingerprint `f`. -/
def allSameFingerprint (nowIso f : String) (inputs : List (String × JObj)) : Prop :=
  ∀ inp ∈ inputs, ∃ np, TrackInfo.from_json inp.1 nowIso inp.2 = .ok np ∧
    (np.publish_image == "default-art.jpg") = false ∧
    np.artist ++ ":" ++ np.title = f

/-- **C1.** Duplicate suppression.  (i) Processing a non-placeholder track
whose fingerprint equals the session's `last_processed_checksum` returns the
state unchanged with no effects (no publication, no artwork deletion or
copy, no web-snapshot rewrite).  (ii) A whole run of snapshots with the
session's current fingerprint produces no effects at all.  (iii) In any
consecutive run of same-fingerprint snapshots, at most the first produces
any side effects: every later snapshot's effect list is empty. -/
theorem c1_duplicate_suppression (cfg : PConfig) (now : Nat) (nowIso f : String) :
    (∀ fresh data st np, TrackInfo.from_json fresh nowIso data = .ok np →
      (np.publish_image == "default-art.jpg") = false →
      st.last_processed_checksum = some (np.artist ++ ":" ++ np.title) →
      process_new_track_data cfg now nowIso fresh data st = (st, [])) ∧
    (∀ inputs st, allSameFingerprint nowIso f inputs →
      st.last_processed_checksum = some f →
      processRun cfg now nowIso inputs st = (st, inputs.map (fun _ => []))) ∧
    (∀ inputs st, allSameFingerprint nowIso f inputs →
      (processRun cfg now nowIso inputs st).2.drop 1
        = (inputs.drop 1).map (fun _ => [])) := by
  have part1 : ∀ fresh data st np, TrackInfo.from_json fresh nowIso data = .ok np →
      (np.publish_image == "default-art.jpg") = false →
      st.last_processed_checksum = some (np.artist ++ ":" ++ np.title) →
      process_new_track_data cfg now nowIso fresh data st = (st, []) := by
    intro fresh data st np hfj hph hdup
    unfold process_new_track_data
    rw [hfj]
    simp [hph, hdup]
  have hfp : ∀ fresh data st np, TrackInfo.from_json fresh nowIso data = .ok np →
      (np.publish_image == "default-art.jpg") = false →
      (process_new_track_data cfg now nowIso fresh data st).1.last_processed_checksum
        = some (np.artist ++ ":" ++ np.title) := by
    intro fresh data st np hfj hph
    unfold process_new_track_data
    rw [hfj]
    simp only [hph, Bool.false_eq_true, if_false]
    by_cases hdup :
        (st.last_processed_checksum == some (np.artist ++ ":" ++ np.title)) = true
    · simp only [hdup, if_true]
      exact eq_of_beq hdup
    · simp only [hdup, Bool.false_eq_true, if_false]
      exact processValidTrack_checksum cfg now np st
  have part2 : ∀ inputs st, allSameFingerprint nowIso f inputs →
      st.last_processed_checksum = some f →
      processRun cfg now nowIso inputs st = (st, inputs.map (fun _ => [])) := by
    intro inputs
    induction inputs with
    | nil => intro st _ _; rfl
    | cons inp rest ih =>
      intro st hall hst
      obtain ⟨np, hfj, hph, hf⟩ := hall inp (List.mem_cons_self inp rest)
      have hdup : st.last_processed_checksum = some (np.artist ++ ":" ++ np.title) := by
        rw [hf, hst]
      have h1 : process_new_track_data cfg now nowIso inp.1 inp.2 st = (st, []) :=
        part1 inp.1 inp.2 st np hfj hph hdup
      have h2 := ih st (fun i hi => hall i (List.mem_cons_of_mem inp hi)) hst
      show (let r1 := process_new_track_data cfg now nowIso inp.1 inp.2 st
            let r2 := processRun cfg now nowIso rest r1.1
            (r2.1, r1.2 :: r2.2)) = (st, List.map (fun _ => []) (inp :: rest))
      rw [h1]
      simp [h2]
  refine ⟨part1, part2, ?_⟩
  intro inputs st hall
  cases inputs with
  | nil => rfl
  | cons inp rest =>
    obtain ⟨np, hfj, hph, hf⟩ := hall inp (List.mem_cons_self inp rest)
    have hst1 : (process_new_track_data cfg now nowIso inp.1 inp.2 st).1.last_processed_checksum
        = some f := by
      rw [hfp inp.1 inp.2 st np hfj hph, hf]
    have h2 := part2 rest (process_new_track_data cfg now nowIso inp.1 inp.2 st).1
      (fun i hi => hall i (List.mem_cons_of_mem inp hi)) hst1
    show ((let r1 := process_new_track_data cfg now nowIso inp.1 inp.2 st
           let r2 := processRun cfg now nowIso rest r1.1
           (r2.1, r1.2 :: r2.2)) : PState × List (List Effect)).2.drop 1
        = (rest.map (fun _ => []))
    simp [h2]

/-- Witness for C1 at concrete inputs: a track equal to the session
fingerprint is a no-op, and a two-snapshot run of the same track produces
effects only on the first. -/
theorem c1_duplicate_suppression_witness :
    process_new_track_data ⟨[], []⟩ 7 "now" "0123456789abcdef0123456789abcdef"
      [("artist", .str "A"), ("title", .str "T")]
      { initState 0 0 with last_processed_checksum := some "A:T" } =
      ({ initState 0 0 with last_processed_checksum := some "A:T" }, []) ∧
    (processRun ⟨[], []⟩ 7 "now"
      [("0123456789abcdef0123456789abcdef", [("artist", .str "A"), ("title", .str "T")]),
       ("fedcba9876543210fedcba9876543210", [("artist", .str "A"), ("title", .str "T")])]
      (initState 0 0)).2.drop 1 = [[]] := by
  constructor
  · exact (c1_duplicate_suppression ⟨[], []⟩ 7 "now" "A:T").1
      "0123456789abcdef0123456789abcdef"
      [("artist", .str "A"), ("title", .str "T")]
      { initState 0 0 with last_processed_checksum := some "A:T" }
      { artist := "A", title := "T", album := "Unknown Album"
      , publisher := "", ISRC := "", image := "art-00.jpg"
      , publish_image := "0123456789abcdef0123456789abcdef.jpg"
      , start_time := "now", duration := 0
      , program_title := "Unknown Program", presenter := "" }
      rfl rfl rfl
  · exact (c1_duplicate_suppression ⟨[], []⟩ 7 "now" "A:T").2.2
      [("0123456789abcdef0123456789abcdef", [("artist", .str "A"), ("title", .str "T")]),
       ("fedcba9876543210fedcba9876543210", [("artist", .str "A"), ("title", .str "T")])]
      (initState 0 0)
      (by
        intro inp hinp
        simp only [List.mem_cons, List.not_mem_nil, or_false] at hinp
        rcases hinp with h | h
        · exact ⟨{ artist := "A", title := "T", album := "Unknown Album"
                 , publisher := "", ISRC := "", image := "art-00.jpg"
                 , publish_image := "0123456789abcdef0123456789abcdef.jpg"
                 , start_time := "now", duration := 0
                 , program_title := "Unknown Program", presenter := "" },
                 by rw [h]; rfl, rfl, rfl⟩
        · exact ⟨{ artist := "A", title := "T", album := "Unknown Album"
                 , publisher := "", ISRC := "", image := "art-00.jpg"
                 , publish_image := "fedcba9876543210fedcba9876543210.jpg"
                 , start_time := "now", duration := 0
                 , program_title := "Unknown Program", presenter := "" },
                 by rw [h]; rfl, rfl, rfl⟩)

/-! ## C10 -/

/-- The field `k` is absent or decoded as a string (so `.strip()` cannot
raise on it). -/
def strOrAbsent (d : JObj) (k : String) : Bool :=
  match jget d k with
  | none => true
  | some (.str _) => true
  | some _ => false

/-- The `duration` field is absent or `int()`-convertible. -/
def goodDuration (d : JObj) : Bool :=
  match jget d "duration" with
  | none => true
  | some v => match pyInt v with | .ok _ => true | .error _ => false

/-- A record on which `TrackInfo.from_json` cannot raise: every string field
absent-or-string and the duration `int()`-convertible. -/
def wellFormedFields (d : JObj) : Bool :=
  strOrAbsent d "artist" && strOrAbsent d "title" && strOrAbsent d "album" &&
  strOrAbsent d "publisher" && strOrAbsent d "ISRC" && strOrAbsent d "image" &&
  strOrAbsent d "starttime" && strOrAbsent d "program" && strOrAbsent d "presenter" &&
  goodDuration d

/-- Total variant of `data.get(k, dflt)` restricted to string values. -/
def getStrD (d : JObj) (k dflt : String) : String :=
  match jget d k with
  | some (.str s) => s
  | _ => dflt

/-- Total variant of `int(data.get('duration', 0))`. -/
def durD (d : JObj) : Int :=
  match jget d "duration" with
  | none => 0
  | some v => match pyInt v with | .ok n => n | .error _ => 0

theorem getStrOr_wf {d : JObj} {k : String} (dflt : String)
    (h : strOrAbsent d k = true) :
    getStrOr d k dflt = .ok (getStrD d k dflt) := by
  unfold strOrAbsent at h
  unfold getStrOr getStrD
  cases hj : jget d k with
  | none => rfl
  | some v => cases v <;> simp_all

theorem getDuration_wf {d : JObj} (h : goodDuration d = true) :
    getDuration d = .ok (durD d) := by
  unfold goodDuration at h
  unfold getDuration durD
  cases hj : jget d "duration" with
  | none => rfl
  | some v =>
    rw [hj] at h
    dsimp only at h ⊢
    cases hp : pyInt v with
    | ok n => simp [hp]
    | error e => rw [hp] at h; exact absurd h (by simp)

/-- On a well-formed valid-song record, extraction succeeds and produces the
field-wise cleaned track. -/
theorem from_json_valid_eq (fresh nowIso : String) (d : JObj)
    (hwf : wellFormedFields d = true)
    (hv : TrackInfo.is_valid_song d = .ok true) :
    TrackInfo.from_json fresh nowIso d =
      .ok { artist := pyStrip (getStrD d "artist" "Unknown Artist")
          , title := TrackInfo.clean_title (getStrD d "title" "Unknown Title")
          , album := pyStrip (getStrD d "album" "Unknown Album")
          , publisher := pyStrip (getStrD d "publisher" "")
          , ISRC := pyStrip (getStrD d "ISRC" "")
          , image := pyStrip (getStrD d "image" "art-00.jpg")
          , publish_image := fresh ++ ".jpg"
          , start_time := getStrD d "starttime" nowIso
          , duration := durD d
          , program_title := pyStrip (getStrD d "program" "Unknown Program")
          , presenter := pyStrip (getStrD d "presenter" "") } := by
  simp only [wellFormedFields, Bool.and_eq_true] at hwf
  obtain ⟨⟨⟨⟨⟨⟨⟨⟨⟨h1, h2⟩, h3⟩, h4⟩, h5⟩, h6⟩, h7⟩, h8⟩, h9⟩, h10⟩ := hwf
  unfold TrackInfo.from_json
  rw [hv, exceptBind_ok]
  simp only [Bool.cond_true]
  rw [getStrOr_wf "Unknown Artist" h1, exceptBind_ok,
      getStrOr_wf "Unknown Title" h2, exceptBind_ok,
      getStrOr_wf "Unknown Album" h3, exceptBind_ok,
      getStrOr_wf "" h4, exceptBind_ok,
      getStrOr_wf "" h5, exceptBind_ok,
      getStrOr_wf "art-00.jpg" h6, exceptBind_ok,
      getStrOr_wf nowIso h7, exceptBind_ok,
      getDuration_wf h10, exceptBind_ok,
      getStrOr_wf "Unknown Program" h8, exceptBind_ok,
      getStrOr_wf "" h9, exceptBind_ok]

/-- A string whose first character is not whitespace strips to a non-empty
string. -/
theorem pyStrip_ne_empty_of_head {t : String} {c : Char} {rest : List Char}
    (ht : t.data = c :: rest) (hc : pyIsSpace c = false) :
    pyStrip t ≠ "" := by
  intro habs
  unfold pyStrip at habs
  rw [ht] at habs
  rw [List.dropWhile_cons] at habs
  simp only [hc, Bool.false_eq_true, if_false] at habs
  have hdata : ((((c :: rest).reverse.dropWhile pyIsSpace)).reverse : List Char) = [] := by
    have := congrArg String.data habs
    simpa using this
  rw [List.reverse_eq_nil_iff, List.dropWhile_eq_nil_iff] at hdata
  have hcmem : c ∈ (c :: rest).reverse := by simp
  have := hdata c hcmem
  rw [hc] at this
  exact Bool.false_ne_true this

/-- **C10.** An input record whose artist and title are non-empty after
trimming but whose title begins with `(`, `[` or `<` extracts to a
*non-placeholder* track (fresh uuid artwork name, not the sentinel) whose
cleaned title is the empty string, so the dedup fingerprint degenerates to
`"artist:"`. -/
theorem c10_bracket_title_empty_fingerprint (d : JObj) (fresh nowIso a t : String)
    (c : Char)
    (hwf : wellFormedFields d = true)
    (hja : jget d "artist" = some (.str a)) (ha : pyStrip a ≠ "")
    (hjt : jget d "title" = some (.str t)) (hht : t.data.head? = some c)
    (hc : c = '(' ∨ c = '[' ∨ c = '<')
    (hfr : fresh.length = 32) :
    ∃ tr, TrackInfo.from_json fresh nowIso d = .ok tr ∧ tr.title = "" ∧
      tr.publish_image ≠ "default-art.jpg" ∧
      tr.artist ++ ":" ++ tr.title = pyStrip a ++ ":" := by
  obtain ⟨rest, ht⟩ : ∃ rest, t.data = c :: rest := by
    cases hl : t.data with
    | nil => rw [hl] at hht; exact absurd hht (by simp)
    | cons c' r =>
      rw [hl] at hht
      simp only [List.head?_cons, Option.some.injEq] at hht
      exact ⟨r, by rw [hht]⟩
  have hcns : pyIsSpace c = false := by
    rcases hc with h | h | h <;> rw [h] <;> rfl
  have htne : pyStrip t ≠ "" := pyStrip_ne_empty_of_head ht hcns
  have hv : TrackInfo.is_valid_song d = .ok true := by
    unfold TrackInfo.is_valid_song
    rw [show getStrOr d "artist" "" = .ok a by simp [getStrOr, hja], exceptBind_ok,
        show getStrOr d "title" "" = .ok t by simp [getStrOr, hjt], exceptBind_ok]
    have h1 : (pyStrip a == "") = false := by
      rw [beq_eq_false_iff_ne]; exact ha
    have h2 : (pyStrip t == "") = false := by
      rw [beq_eq_false_iff_ne]; exact htne
    rw [h1, h2]
    rfl
  have hfj := from_json_valid_eq fresh nowIso d hwf hv
  refine ⟨_, hfj, ?_, ?_, ?_⟩
  · show TrackInfo.clean_title (getStrD d "title" "Unknown Title") = ""
    have hgt : getStrD d "title" "Unknown Title" = t := by simp [getStrD, hjt]
    rw [hgt]
    unfold TrackInfo.clean_title
    rw [ht, List.takeWhile_cons]
    have hpred : (!(c == '(' || c == '[' || c == '<')) = false := by
      rcases hc with h | h | h <;> rw [h] <;> rfl
    simp only [hpred, Bool.false_eq_true, if_false]
    rfl
  · show fresh ++ ".jpg" ≠ "default-art.jpg"
    intro habs
    have hlen := congrArg String.length habs
    rw [String.length_append, hfr] at hlen
    have h4 : (".jpg" : String).length = 4 := rfl
    have h15 : ("default-art.jpg" : String).length = 15 := rfl
    rw [h4, h15] at hlen
    exact absurd hlen (by omega)
  · show pyStrip (getStrD d "artist" "Unknown Artist") ++ ":" ++
        TrackInfo.clean_title (getStrD d "title" "Unknown Title") = pyStrip a ++ ":"
    have hga : getStrD d "artist" "Unknown Artist" = a := by simp [getStrD, hja]
    have hgt : getStrD d "title" "Unknown Title" = t := by simp [getStrD, hjt]
    have hct : TrackInfo.clean_title t = "" := by
      unfold TrackInfo.clean_title
      rw [ht, List.takeWhile_cons]
      have hpred : (!(c == '(' || c == '[' || c == '<')) = false := by
        rcases hc with h | h | h <;> rw [h] <;> rfl
      simp only [hpred, Bool.false_eq_true, if_false]
      rfl
    rw [hga, hgt, hct]
    simp

/-- Witness for C10 at a concrete input. -/
theorem c10_bracket_title_empty_fingerprint_witness :
    ∃ tr, TrackInfo.from_json "0123456789abcdef0123456789abcdef" "now"
        [("artist", .str "X"), ("title", .str "(Live)")] = .ok tr ∧
      tr.title = "" ∧ tr.publish_image ≠ "default-art.jpg" ∧
      tr.artist ++ ":" ++ tr.title = pyStrip "X" ++ ":" :=
  c10_bracket_title_empty_fingerprint
    [("artist", .str "X"), ("title", .str "(Live)")]
    "0123456789abcdef0123456789abcdef" "now" "X" "(Live)" '('
    rfl rfl (by decide) rfl rfl (Or.inl rfl) rfl

/-! ## C8

The amended round-trip property is proved parametrically for flat objects
`{"k1":"v1",...,"kn":"vn",}` (trailing comma before the brace) whose keys
and values consist of *plain* characters: no quote, backslash, colon, comma,
closing brace/bracket, and no control characters.  Over that class the first
three `re.sub` passes are the identity and the fourth removes exactly the
trailing comma, after which strict parsing recovers the pairs. -/

/-- Characters over which the sanitizer passes are inert. -/
def plainChar (c : Char) : Bool :=
  !(c == '"') && !(c == '\\') && !(c == ':') && !(c == ',') &&
  !(c == '}') && !(c == ']') && !(c.toNat ≤ 31 || c.toNat == 127)

/-- All characters plain. -/
def plainStr (s : String) : Bool := s.data.all plainChar

/-- The characters of one serialized member `"k":"v"` (no space after the
colon). -/
def pairChars (p : String × String) : List Char :=
  '"' :: p.1.data ++ '"' :: ':' :: '"' :: p.2.data ++ ['"']

/-- Members each followed by a comma, then the closing brace — the part of
the trailing-comma serialization after `{`. -/
def serTrailAux : List (String × String) → List Char
  | [] => ['}']
  | p :: ps => pairChars p ++ ',' :: serTrailAux ps

/-- `{"k1":"v1",...,"kn":"vn",}` — a JSON object text with a trailing comma
before `}`. -/
def serTrail (ps : List (String × String)) : String :=
  String.mk ('{' :: serTrailAux ps)

/-- The strict (comma-separated, no trailing comma) member serialization. -/
def serStrictAux : List (String × String) → List Char
  | [] => ['}']
  | [p] => pairChars p ++ ['}']
  | p :: ps => pairChars p ++ ',' :: serStrictAux ps

theorem takeWhile_nq (k t : List Char)
    (hk : k.all (fun c => !(c == '"')) = true) :
    (k ++ '"' :: t).takeWhile (fun x => !(x == '"')) = k := by
  induction k with
  | nil => simp [List.takeWhile_cons]
  | cons c l ih =>
    simp only [List.all_cons, Bool.and_eq_true] at hk
    simp [List.takeWhile_cons, hk.1, ih hk.2]

theorem dropWhile_nq (k t : List Char)
    (hk : k.all (fun c => !(c == '"')) = true) :
    (k ++ '"' :: t).dropWhile (fun x => !(x == '"')) = '"' :: t := by
  induction k with
  | nil => simp [List.dropWhile_cons]
  | cons c l ih =>
    simp only [List.all_cons, Bool.and_eq_true] at hk
    simp [List.dropWhile_cons, hk.1, ih hk.2]

theorem matchPair_not_quote {c : Char} {cs : List Char} (h : (c == '"') = false) :
    matchPair (c :: cs) = none := by
  simp [matchPair, h]

/-- The outer pattern of `r'"([^"]+)": "([^"]+)"'` fails at the head of
`'"' :: cs` whenever the post-key window cannot be `": "` followed by a
quote with a non-empty key. -/
theorem matchPair_quote_none (cs : List Char)
    (h : ∀ q1 c1 c2 q2 cs2,
      cs.dropWhile (fun x => !(x == '"')) = q1 :: c1 :: c2 :: q2 :: cs2 →
      (q1 == '"' && c1 == ':' && c2 == ' ' && q2 == '"' &&
        !(cs.takeWhile (fun x => !(x == '"')) == [])) = false) :
    matchPair ('"' :: cs) = none := by
  simp only [matchPair, beq_self_eq_true, if_true]
  rcases hd : cs.dropWhile (fun x => !(x == '"')) with _ | ⟨q1, _ | ⟨c1, _ | ⟨c2, _ | ⟨q2, cs2⟩⟩⟩⟩
  · rfl
  · rfl
  · rfl
  · rfl
  · have hcond := h q1 c1 c2 q2 cs2 hd
    simp only [hcond, Bool.false_eq_true, if_false]

theorem plainChar_facts {c : Char} (h : plainChar c = true) :
    (c == '"') = false ∧ (c == '\\') = false ∧ (c == ':') = false ∧
    (c == ',') = false ∧ (c == '}') = false ∧ (c == ']') = false ∧
    (c.toNat ≤ 31 || c.toNat == 127) = false := by
  simp only [plainChar, Bool.and_eq_true, Bool.not_eq_true'] at h
  obtain ⟨⟨⟨⟨⟨⟨h1, h2⟩, h3⟩, h4⟩, h5⟩, h6⟩, h7⟩ := h
  exact ⟨h1, h2, h3, h4, h5, h6, h7⟩

theorem all_nq_of_plain {l : List Char} (h : l.all plainChar = true) :
    l.all (fun c => !(c == '"')) = true := by
  rw [List.all_eq_true] at *
  intro c hc
  have := (plainChar_facts (h c hc)).1
  simp [this]

theorem all_nc_of_plain {l : List Char} (h : l.all plainChar = true) :
    l.all (fun c => !(c == ',')) = true := by
  rw [List.all_eq_true] at *
  intro c hc
  have := (plainChar_facts (h c hc)).2.2.2.1
  simp [this]

theorem fixPairsF_nil : ∀ n, fixPairsF n [] = [] := by
  intro n; cases n <;> rfl

theorem fixPairsF_step_none (n : Nat) {c : Char} {cs : List Char}
    (h : matchPair (c :: cs) = none) :
    fixPairsF (n + 1) (c :: cs) = c :: fixPairsF n cs := by
  simp [fixPairsF, h]

theorem fixPairsF_nq (l r : List Char) (hl : l.all (fun c => !(c == '"')) = true) :
    ∀ n, fixPairsF (l.length + n) (l ++ r) = l ++ fixPairsF n r := by
  induction l with
  | nil => intro n; simp
  | cons c l ih =>
    intro n
    simp only [List.all_cons, Bool.and_eq_true] at hl
    have hc : (c == '"') = false := by
      have := hl.1
      rwa [Bool.not_eq_true'] at this
    have hmp : matchPair (c :: (l ++ r)) = none := matchPair_not_quote hc
    rw [show (c :: l).length + n = (l.length + n) + 1 from by
      simp only [List.length_cons]; omega]
    rw [List.cons_append, fixPairsF_step_none _ hmp, ih hl.2 n]
    rfl

/-- No match at a member's opening quote (the post-key window is `":"`, not
`": "`). -/
theorem mp_key_open (k v r : List Char)
    (hk : k.all (fun c => !(c == '"')) = true) :
    matchPair ('"' :: (k ++ '"' :: ':' :: '"' :: (v ++ '"' :: ',' :: r))) = none := by
  apply matchPair_quote_none
  intro q1 c1 c2 q2 cs2 hd
  rw [dropWhile_nq k _ hk] at hd
  simp only [List.cons.injEq] at hd
  obtain ⟨_, _, h3, _⟩ := hd
  rw [← h3]
  simp

/-- No match at a member's key-closing quote. -/
theorem mp_key_close (v r : List Char) (hv : v.all plainChar = true) :
    matchPair ('"' :: (':' :: '"' :: (v ++ '"' :: ',' :: r))) = none := by
  apply matchPair_quote_none
  intro q1 c1 c2 q2 cs2 hd
  rw [List.dropWhile_cons] at hd
  simp only [show (!((':' : Char) == '"')) = true from rfl, if_true] at hd
  rw [List.dropWhile_cons] at hd
  simp only [show (!(('"' : Char) == '"')) = false from rfl, Bool.false_eq_true,
    if_false] at hd
  cases hv2 : v with
  | nil =>
    rw [hv2] at hd
    simp only [List.nil_append, List.cons.injEq] at hd
    obtain ⟨_, h2, _⟩ := hd
    rw [← h2]
    simp
  | cons a v2 =>
    rw [hv2] at hd
    simp only [List.cons_append, List.cons.injEq] at hd
    obtain ⟨_, h2, _⟩ := hd
    rw [hv2] at hv
    simp only [List.all_cons, Bool.and_eq_true] at hv
    have ha := (plainChar_facts hv.1).2.2.1
    rw [← h2]
    simp [ha]

/-- No match at a member's value-opening quote (a comma follows the value's
closing quote). -/
theorem mp_value_open (v r : List Char)
    (hv : v.all (fun c => !(c == '"')) = true) :
    matchPair ('"' :: (v ++ '"' :: ',' :: r)) = none := by
  apply matchPair_quote_none
  intro q1 c1 c2 q2 cs2 hd
  rw [dropWhile_nq v _ hv] at hd
  simp only [List.cons.injEq] at hd
  obtain ⟨_, h2, _⟩ := hd
  rw [← h2]
  simp

/-- All members of the run are plain. -/
def plainAll (ps : List (String × String)) : Bool :=
  ps.all (fun p => plainStr p.1 && plainStr p.2)

/-- No match at a member's value-closing quote, whatever serialized members
follow. -/
theorem mp_value_close (ps2 : List (String × String)) (h : plainAll ps2 = true) :
    matchPair ('"' :: ',' :: serTrailAux ps2) = none := by
  apply matchPair_quote_none
  intro q1 c1 c2 q2 cs2 hd
  rw [List.dropWhile_cons] at hd
  simp only [show (!((',' : Char) == '"')) = true from rfl, if_true] at hd
  cases ps2 with
  | nil =>
    simp only [serTrailAux, List.dropWhile_cons,
      show (!(('}' : Char) == '"')) = true from rfl, if_true, List.dropWhile_nil] at hd
    exact absurd hd (by simp)
  | cons q qs =>
    simp only [plainAll, List.all_cons, Bool.and_eq_true] at h
    obtain ⟨⟨hk, hv⟩, _⟩ := h
    have hser : serTrailAux (q :: qs) =
        '"' :: (q.1.data ++ '"' :: ':' :: '"' :: (q.2.data ++ '"' :: ',' :: serTrailAux qs)) := by
      simp [serTrailAux, pairChars, List.cons_append, List.append_assoc]
    rw [hser, List.dropWhile_cons] at hd
    simp only [show (!(('"' : Char) == '"')) = false from rfl, Bool.false_eq_true,
      if_false] at hd
    cases hq : q.1.data with
    | nil =>
      rw [hq] at hd
      simp only [List.nil_append, List.cons.injEq] at hd
      obtain ⟨_, h2, _⟩ := hd
      rw [← h2]
      simp
    | cons a k2 =>
      rw [hq] at hd
      simp only [List.cons_append, List.cons.injEq] at hd
      obtain ⟨_, h2, _⟩ := hd
      simp only [plainStr] at hk
      rw [hq] at hk
      simp only [List.all_cons, Bool.and_eq_true] at hk
      have ha := (plainChar_facts hk.1).2.2.1
      rw [← h2]
      simp [ha]

/-- Scanning one serialized member `"k":"v",` is the identity: every
attempted match inside it fails. -/
theorem fixPairsF_pair (k v r : List Char) (n : Nat)
    (hk : k.all plainChar = true) (hv : v.all plainChar = true)
    (hr : matchPair ('"' :: ',' :: r) = none) :
    fixPairsF (k.length + v.length + n + 6)
        ('"' :: (k ++ '"' :: ':' :: '"' :: (v ++ '"' :: ',' :: r)))
      = '"' :: (k ++ '"' :: ':' :: '"' :: (v ++ '"' :: ',' :: fixPairsF n r)) := by
  rw [show k.length + v.length + n + 6 = (k.length + v.length + n + 5) + 1 from rfl]
  rw [fixPairsF_step_none _ (mp_key_open k v r (all_nq_of_plain hk))]
  rw [show k.length + v.length + n + 5 = k.length + (v.length + n + 5) from by omega]
  rw [fixPairsF_nq k _ (all_nq_of_plain hk) (v.length + n + 5)]
  rw [show v.length + n + 5 = (v.length + n + 4) + 1 from rfl]
  rw [fixPairsF_step_none _ (mp_key_close v r hv)]
  rw [show v.length + n + 4 = (v.length + n + 3) + 1 from rfl]
  rw [fixPairsF_step_none _
    (matchPair_not_quote (show ((':' : Char) == '"') = false from rfl))]
  rw [show v.length + n + 3 = (v.length + n + 2) + 1 from rfl]
  rw [fixPairsF_step_none _ (mp_value_open v r (all_nq_of_plain hv))]
  rw [show v.length + n + 2 = v.length + (n + 2) from by omega]
  rw [fixPairsF_nq v _ (all_nq_of_plain hv) (n + 2)]
  rw [show n + 2 = (n + 1) + 1 from rfl]
  rw [fixPairsF_step_none _ hr]
  rw [fixPairsF_step_none _
    (matchPair_not_quote (show ((',' : Char) == '"') = false from rfl))]

/-- The first `re.sub` pass is the identity on the whole member list. -/
theorem fixPairsF_serTrailAux (ps : List (String × String)) (h : plainAll ps = true) :
    ∀ n, fixPairsF ((serTrailAux ps).length + n) (serTrailAux ps) = serTrailAux ps := by
  induction ps with
  | nil =>
    intro n
    rw [show (serTrailAux []).length + n = n + 1 from by simp [serTrailAux]; omega]
    show fixPairsF (n + 1) ('}' :: []) = serTrailAux []
    rw [fixPairsF_step_none _
      (matchPair_not_quote (show (('}' : Char) == '"') = false from rfl))]
    rw [fixPairsF_nil]
    rfl
  | cons p ps ih =>
    intro n
    simp only [plainAll, List.all_cons, Bool.and_eq_true] at h
    obtain ⟨⟨hk, hv⟩, htl⟩ := h
    have hser : serTrailAux (p :: ps) =
        '"' :: (p.1.data ++ '"' :: ':' :: '"' :: (p.2.data ++ '"' :: ',' :: serTrailAux ps)) := by
      simp [serTrailAux, pairChars, List.cons_append, List.append_assoc]
    rw [show (serTrailAux (p :: ps)).length + n
        = p.1.data.length + p.2.data.length + ((serTrailAux ps).length + n) + 6 from by
      simp [serTrailAux, pairChars]; omega]
    rw [hser]
    rw [fixPairsF_pair _ _ _ _ hk hv
      (mp_value_close ps (by simp only [plainAll]; exact htl))]
    rw [ih (by simp only [plainAll]; exact htl) n]

/-- `fixPairs` is the identity on the trailing-comma serialization. -/
theorem fixPairs_serTrail (ps : List (String × String)) (h : plainAll ps = true) :
    fixPairs ('{' :: serTrailAux ps) = '{' :: serTrailAux ps := by
  unfold fixPairs
  rw [show ('{' :: serTrailAux ps).length = (serTrailAux ps).length + 1 from by simp]
  rw [fixPairsF_step_none _
    (matchPair_not_quote (show (('{' : Char) == '"') = false from rfl))]
  rw [show (serTrailAux ps).length = (serTrailAux ps).length + 0 from by omega]
  rw [fixPairsF_serTrailAux ps h 0]

theorem pairChars_all {p : String × String} {q : Char → Bool}
    (hk : p.1.data.all q = true) (hv : p.2.data.all q = true)
    (h1 : q '"' = true) (h2 : q ':' = true) :
    (pairChars p).all q = true := by
  simp [pairChars, List.all_cons, List.all_append, hk, hv, h1, h2]

theorem all_ctl_of_plain {l : List Char} (h : l.all plainChar = true) :
    l.all (fun c => !(c.toNat ≤ 31 || c.toNat == 127)) = true := by
  rw [List.all_eq_true] at *
  intro c hc
  have := (plainChar_facts (h c hc)).2.2.2.2.2.2
  simp only [Bool.not_eq_true']
  exact this

theorem serTrailAux_all_ctl (ps : List (String × String)) (h : plainAll ps = true) :
    (serTrailAux ps).all (fun c => !(c.toNat ≤ 31 || c.toNat == 127)) = true := by
  induction ps with
  | nil => rfl
  | cons p ps ih =>
    simp only [plainAll, List.all_cons, Bool.and_eq_true] at h
    obtain ⟨⟨hk, hv⟩, htl⟩ := h
    simp only [serTrailAux, List.all_append, List.all_cons, Bool.and_eq_true]
    exact ⟨pairChars_all (all_ctl_of_plain hk) (all_ctl_of_plain hv) rfl rfl,
           rfl, ih (by simp only [plainAll]; exact htl)⟩

theorem stripCtl_serTrail (ps : List (String × String)) (h : plainAll ps = true) :
    stripCtl ('{' :: serTrailAux ps) = '{' :: serTrailAux ps := by
  unfold stripCtl
  rw [List.filter_eq_self]
  intro c hc
  rcases List.mem_cons.mp hc with hc | hc
  · rw [hc]; rfl
  · have := serTrailAux_all_ctl ps h
    rw [List.all_eq_true] at this
    exact this c hc

theorem sccF_nil (close : Char) : ∀ n, stripCommaCloseF close n [] = [] := by
  intro n; cases n <;> rfl

theorem sccF_step_nc (close c : Char) (cs : List Char) (n : Nat)
    (h : (c == ',') = false) :
    stripCommaCloseF close (n + 1) (c :: cs) = c :: stripCommaCloseF close n cs := by
  simp [stripCommaCloseF, h]

theorem sccF_nc (close : Char) (l r : List Char)
    (hl : l.all (fun c => !(c == ',')) = true) :
    ∀ n, stripCommaCloseF close (l.length + n) (l ++ r)
      = l ++ stripCommaCloseF close n r := by
  induction l with
  | nil => intro n; simp
  | cons c l ih =>
    intro n
    simp only [List.all_cons, Bool.and_eq_true] at hl
    have hc : (c == ',') = false := by
      have := hl.1
      rwa [Bool.not_eq_true'] at this
    rw [show (c :: l).length + n = (l.length + n) + 1 from by
      simp only [List.length_cons]; omega]
    rw [List.cons_append, sccF_step_nc close c (l ++ r) _ hc, ih hl.2 n]
    rfl

theorem sccF_comma_pass (close d : Char) (rest : List Char) (n : Nat)
    (hd1 : pyIsSpace d = false) (hd2 : (d == close) = false) :
    stripCommaCloseF close (n + 1) (',' :: d :: rest)
      = ',' :: stripCommaCloseF close n (d :: rest) := by
  simp [stripCommaCloseF, List.dropWhile_cons, hd1, hd2]

theorem sccF_comma_close (close : Char) (rest2 : List Char) (n : Nat)
    (hcl : pyIsSpace close = false) :
    stripCommaCloseF close (n + 1) (',' :: close :: rest2)
      = close :: stripCommaCloseF close n rest2 := by
  simp [stripCommaCloseF, List.dropWhile_cons, hcl]

/-- The `,\s*}` pass turns the trailing-comma member list into the strict
one. -/
theorem sccF_serTrailAux_to_strict (ps : List (String × String))
    (hps : plainAll ps = true) (hne : ps ≠ []) :
    ∀ n, stripCommaCloseF '}' ((serTrailAux ps).length + n) (serTrailAux ps)
      = serStrictAux ps := by
  induction ps with
  | nil => exact absurd rfl hne
  | cons p ps ih =>
    intro n
    simp only [plainAll, List.all_cons, Bool.and_eq_true] at hps
    obtain ⟨⟨hk, hv⟩, htl⟩ := hps
    have hnc : (pairChars p).all (fun c => !(c == ',')) = true :=
      pairChars_all (all_nc_of_plain hk) (all_nc_of_plain hv) rfl rfl
    cases ps with
    | nil =>
      rw [show (serTrailAux [p]).length + n = (pairChars p).length + (n + 2) from by
        simp [serTrailAux, pairChars]; omega]
      rw [show serTrailAux [p] = pairChars p ++ (',' :: '}' :: []) from by
        simp [serTrailAux]]
      rw [sccF_nc '}' _ _ hnc (n + 2)]
      rw [show n + 2 = (n + 1) + 1 from rfl]
      rw [sccF_comma_close '}' [] (n + 1) rfl]
      rw [sccF_nil]
      rfl
    | cons q qs =>
      rw [show (serTrailAux (p :: q :: qs)).length + n
          = (pairChars p).length + (((serTrailAux (q :: qs)).length + n) + 1) from by
        simp [serTrailAux]; omega]
      rw [show serTrailAux (p :: q :: qs)
          = pairChars p ++ (',' :: serTrailAux (q :: qs)) from by
        simp [serTrailAux]]
      rw [sccF_nc '}' _ _ hnc _]
      have hhd : serTrailAux (q :: qs) = '"' :: (q.1.data ++ '"' :: ':' :: '"' ::
          (q.2.data ++ '"' :: ',' :: serTrailAux qs)) := by
        simp [serTrailAux, pairChars, List.cons_append, List.append_assoc]
      rw [hhd, sccF_comma_pass '}' '"' _ _ rfl rfl, ← hhd]
      rw [ih (by simp only [plainAll]; exact htl) (by simp) n]
      rfl

/-- The `,\s*]` pass is the identity on the strict serialization. -/
theorem sccF_serStrictAux_id (ps : List (String × String))
    (hps : plainAll ps = true) (hne : ps ≠ []) :
    ∀ n, stripCommaCloseF ']' ((serStrictAux ps).length + n) (serStrictAux ps)
      = serStrictAux ps := by
  induction ps with
  | nil => exact absurd rfl hne
  | cons p ps ih =>
    intro n
    simp only [plainAll, List.all_cons, Bool.and_eq_true] at hps
    obtain ⟨⟨hk, hv⟩, htl⟩ := hps
    have hnc : (pairChars p).all (fun c => !(c == ',')) = true :=
      pairChars_all (all_nc_of_plain hk) (all_nc_of_plain hv) rfl rfl
    cases ps with
    | nil =>
      rw [show (serStrictAux [p]).length + n = (pairChars p).length + (n + 1) from by
        simp [serStrictAux, pairChars]; omega]
      rw [show serStrictAux [p] = pairChars p ++ ('}' :: []) from by
        simp [serStrictAux]]
      rw [sccF_nc ']' _ _ hnc (n + 1)]
      rw [sccF_step_nc ']' '}' [] n rfl]
      rw [sccF_nil]
    | cons q qs =>
      rw [show (serStrictAux (p :: q :: qs)).length + n
          = (pairChars p).length + (((serStrictAux (q :: qs)).length + n) + 1) from by
        simp [serStrictAux]; omega]
      rw [show serStrictAux (p :: q :: qs)
          = pairChars p ++ (',' :: serStrictAux (q :: qs)) from by
        simp [serStrictAux]]
      rw [sccF_nc ']' _ _ hnc _]
      have hhd : ∃ rest, serStrictAux (q :: qs) = '"' :: rest := by
        cases qs with
        | nil =>
          exact ⟨q.1.data ++ '"' :: ':' :: '"' :: (q.2.data ++ ['"', '}']),
            by simp [serStrictAux, pairChars, List.cons_append, List.append_assoc]⟩
        | cons q2 qs2 =>
          exact ⟨q.1.data ++ '"' :: ':' :: '"' ::
              (q.2.data ++ '"' :: ',' :: serStrictAux (q2 :: qs2)),
            by simp [serStrictAux, pairChars, List.cons_append, List.append_assoc]⟩
      obtain ⟨rest, hrest⟩ := hhd
      rw [hrest, sccF_comma_pass ']' '"' _ _ rfl rfl, ← hrest]
      rw [ih (by simp only [plainAll]; exact htl) (by simp) n]

theorem plainAll_head {p : String × String} {ps : List (String × String)}
    (h : plainAll (p :: ps) = true) :
    p.1.data.all plainChar = true ∧ p.2.data.all plainChar = true ∧
    plainAll ps = true := by
  simp only [plainAll, plainStr, List.all_cons, Bool.and_eq_true] at h
  exact ⟨h.1.1, h.1.2, by simp only [plainAll, plainStr]; exact h.2⟩

theorem strBody_plain (k t : List Char) (hk : k.all plainChar = true) :
    strBody (k ++ '"' :: t) = some (k, t) := by
  induction k with
  | nil => rfl
  | cons c k ih =>
    simp only [List.all_cons, Bool.and_eq_true] at hk
    have h1 := (plainChar_facts hk.1).1
    have h2 := (plainChar_facts hk.1).2.1
    have hctl := (plainChar_facts hk.1).2.2.2.2.2.2
    have h31 : ¬ c.toNat ≤ 31 := by
      rw [Bool.or_eq_false_iff] at hctl
      have := hctl.1
      rwa [decide_eq_false_iff_not] at this
    have hih := ih hk.2
    simp only [strBody] at hih
    rw [List.cons_append]
    show strBodyS false (c :: (k ++ '"' :: t)) = some (c :: k, t)
    simp only [strBodyS, h1, h2, Bool.false_eq_true, if_false, if_neg h31, hih]

theorem parseJString_plain (k t : List Char) (hk : k.all plainChar = true) :
    parseJString ('"' :: (k ++ '"' :: t)) = some (k, t) := by
  simp [parseJString, strBody_plain k t hk]

theorem skipWs_cons_nonws (c : Char) (cs : List Char) (h : jsonWs c = false) :
    skipWs (c :: cs) = c :: cs := by
  simp [skipWs, List.dropWhile_cons, h]

/-- Parsing the strict member serialization returns exactly the pairs,
positioned at the closing brace. -/
theorem parsePairsF_serStrict : ∀ (ps : List (String × String))
    (p : String × String) (n : Nat), plainAll (p :: ps) = true →
    parsePairsF (n + ps.length + 1) (serStrictAux (p :: ps))
      = some (p :: ps, ['}']) := by
  intro ps
  induction ps with
  | nil =>
    intro p n h
    obtain ⟨hk, hv, _⟩ := plainAll_head h
    have hser : serStrictAux [p]
        = '"' :: (p.1.data ++ '"' :: ':' :: '"' :: (p.2.data ++ '"' :: ['}'])) := by
      simp [serStrictAux, pairChars, List.cons_append, List.append_assoc]
    have hp1 := parseJString_plain p.1.data
      (':' :: '"' :: (p.2.data ++ '"' :: ['}'])) hk
    have hp2 := parseJString_plain p.2.data ['}'] hv
    have hw1 : skipWs (':' :: '"' :: (p.2.data ++ '"' :: ['}']))
        = ':' :: '"' :: (p.2.data ++ '"' :: ['}']) := skipWs_cons_nonws ':' _ rfl
    have hw2 : skipWs ('"' :: (p.2.data ++ '"' :: ['}']))
        = '"' :: (p.2.data ++ '"' :: ['}']) := skipWs_cons_nonws '"' _ rfl
    have hw3 : skipWs ('}' :: []) = '}' :: [] := skipWs_cons_nonws '}' [] rfl
    have hcm : (('}' : Char) == ',') = false := rfl
    rw [hser]
    show parsePairsF ((n + 0) + 1) _ = _
    simp only [parsePairsF, hp1, hp2, hw1, hw2, hw3, hcm, beq_self_eq_true,
      if_true, Bool.false_eq_true, if_false]
  | cons q qs ih =>
    intro p n h
    obtain ⟨hk, hv, htl⟩ := plainAll_head h
    have hser : serStrictAux (p :: q :: qs)
        = '"' :: (p.1.data ++ '"' :: ':' :: '"' ::
            (p.2.data ++ '"' :: ',' :: serStrictAux (q :: qs))) := by
      simp [serStrictAux, pairChars, List.cons_append, List.append_assoc]
    have hp1 := parseJString_plain p.1.data
      (':' :: '"' :: (p.2.data ++ '"' :: ',' :: serStrictAux (q :: qs))) hk
    have hp2 := parseJString_plain p.2.data (',' :: serStrictAux (q :: qs)) hv
    have hw1 : skipWs (':' :: '"' :: (p.2.data ++ '"' :: ',' :: serStrictAux (q :: qs)))
        = ':' :: '"' :: (p.2.data ++ '"' :: ',' :: serStrictAux (q :: qs)) :=
      skipWs_cons_nonws ':' _ rfl
    have hw2 : skipWs ('"' :: (p.2.data ++ '"' :: ',' :: serStrictAux (q :: qs)))
        = '"' :: (p.2.data ++ '"' :: ',' :: serStrictAux (q :: qs)) :=
      skipWs_cons_nonws '"' _ rfl
    have hw3 : skipWs (',' :: serStrictAux (q :: qs)) = ',' :: serStrictAux (q :: qs) :=
      skipWs_cons_nonws ',' _ rfl
    have hhd : ∃ rest, serStrictAux (q :: qs) = '"' :: rest := by
      cases qs with
      | nil =>
        exact ⟨q.1.data ++ '"' :: ':' :: '"' :: (q.2.data ++ ['"', '}']),
          by simp [serStrictAux, pairChars, List.cons_append, List.append_assoc]⟩
      | cons q2 qs2 =>
        exact ⟨q.1.data ++ '"' :: ':' :: '"' ::
            (q.2.data ++ '"' :: ',' :: serStrictAux (q2 :: qs2)),
          by simp [serStrictAux, pairChars, List.cons_append, List.append_assoc]⟩
    obtain ⟨rest, hrest⟩ := hhd
    have hw4 : skipWs (serStrictAux (q :: qs)) = serStrictAux (q :: qs) := by
      rw [hrest]
      exact skipWs_cons_nonws '"' _ rfl
    obtain ⟨m, hm⟩ : ∃ m, m = n + qs.length + 1 := ⟨_, rfl⟩
    have hih : parsePairsF m (serStrictAux (q :: qs)) = some (q :: qs, ['}']) := by
      rw [hm]
      exact ih q n htl
    rw [hser]
    show parsePairsF ((n + (qs.length + 1)) + 1) _ = _
    rw [show (n + (qs.length + 1)) + 1 = m + 1 from by rw [hm]; omega]
    simp only [parsePairsF, hp1, hp2, hw1, hw2, hw3, hw4, hih, beq_self_eq_true,
      if_true]

theorem parsePairsF_brace (m : Nat) : parsePairsF m ('}' :: []) = none := by
  cases m with
  | zero => rfl
  | succ m2 => simp [parsePairsF, parseJString]

/-- Direct (pre-sanitize) parsing of the trailing-comma member list fails:
after the last member's comma a closing brace follows where a string is
required. -/
theorem parsePairsF_serTrail_none : ∀ (ps : List (String × String))
    (p : String × String) (fuel : Nat), plainAll (p :: ps) = true →
    parsePairsF fuel (serTrailAux (p :: ps)) = none := by
  intro ps
  induction ps with
  | nil =>
    intro p fuel h
    obtain ⟨hk, hv, _⟩ := plainAll_head h
    cases fuel with
    | zero => rfl
    | succ m =>
      have hser : serTrailAux [p]
          = '"' :: (p.1.data ++ '"' :: ':' :: '"' ::
              (p.2.data ++ '"' :: ',' :: ['}'])) := by
        simp [serTrailAux, pairChars, List.cons_append, List.append_assoc]
      have hp1 := parseJString_plain p.1.data
        (':' :: '"' :: (p.2.data ++ '"' :: ',' :: ['}'])) hk
      have hp2 := parseJString_plain p.2.data (',' :: ['}']) hv
      have hw1 : skipWs (':' :: '"' :: (p.2.data ++ '"' :: ',' :: ['}']))
          = ':' :: '"' :: (p.2.data ++ '"' :: ',' :: ['}']) :=
        skipWs_cons_nonws ':' _ rfl
      have hw2 : skipWs ('"' :: (p.2.data ++ '"' :: ',' :: ['}']))
          = '"' :: (p.2.data ++ '"' :: ',' :: ['}']) :=
        skipWs_cons_nonws '"' _ rfl
      have hw3 : skipWs (',' :: ['}']) = ',' :: ['}'] := skipWs_cons_nonws ',' _ rfl
      have hw4 : skipWs ['}'] = ['}'] := skipWs_cons_nonws '}' [] rfl
      rw [hser]
      simp only [parsePairsF, hp1, hp2, hw1, hw2, hw3, hw4, beq_self_eq_true,
        if_true, parsePairsF_brace m]
  | cons q qs ih =>
    intro p fuel h
    obtain ⟨hk, hv, htl⟩ := plainAll_head h
    cases fuel with
    | zero => rfl
    | succ m =>
      have hser : serTrailAux (p :: q :: qs)
          = '"' :: (p.1.data ++ '"' :: ':' :: '"' ::
              (p.2.data ++ '"' :: ',' :: serTrailAux (q :: qs))) := by
        simp [serTrailAux, pairChars, List.cons_append, List.append_assoc]
      have hp1 := parseJString_plain p.1.data
        (':' :: '"' :: (p.2.data ++ '"' :: ',' :: serTrailAux (q :: qs))) hk
      have hp2 := parseJString_plain p.2.data (',' :: serTrailAux (q :: qs)) hv
      have hw1 : skipWs (':' :: '"' :: (p.2.data ++ '"' :: ',' :: serTrailAux (q :: qs)))
          = ':' :: '"' :: (p.2.data ++ '"' :: ',' :: serTrailAux (q :: qs)) :=
        skipWs_cons_nonws ':' _ rfl
      have hw2 : skipWs ('"' :: (p.2.data ++ '"' :: ',' :: serTrailAux (q :: qs)))
          = '"' :: (p.2.data ++ '"' :: ',' :: serTrailAux (q :: qs)) :=
        skipWs_cons_nonws '"' _ rfl
      have hw3 : skipWs (',' :: serTrailAux (q :: qs)) = ',' :: serTrailAux (q :: qs) :=
        skipWs_cons_nonws ',' _ rfl
      have hhd : serTrailAux (q :: qs) = '"' :: (q.1.data ++ '"' :: ':' :: '"' ::
          (q.2.data ++ '"' :: ',' :: serTrailAux qs)) := by
        simp [serTrailAux, pairChars, List.cons_append, List.append_assoc]
      have hw4 : skipWs (serTrailAux (q :: qs)) = serTrailAux (q :: qs) := by
        rw [hhd]
        exact skipWs_cons_nonws '"' _ rfl
      have hih := ih q m htl
      rw [hser]
      simp only [parsePairsF, hp1, hp2, hw1, hw2, hw3, hw4, beq_self_eq_true,
        if_true, hih]

theorem serStrict_len_ge : ∀ (ps : List (String × String)) (p : String × String),
    (p :: ps).length ≤ (serStrictAux (p :: ps)).length := by
  intro ps
  induction ps with
  | nil => intro p; simp [serStrictAux, pairChars]
  | cons q qs ih =>
    intro p
    have := ih q
    simp only [serStrictAux, List.length_append, List.length_cons] at *
    omega

theorem serStrictAux_head : ∀ (ps : List (String × String)) (p : String × String),
    ∃ rest, serStrictAux (p :: ps) = '"' :: rest := by
  intro ps p
  cases ps with
  | nil =>
    exact ⟨p.1.data ++ '"' :: ':' :: '"' :: (p.2.data ++ ['"', '}']),
      by simp [serStrictAux, pairChars, List.cons_append, List.append_assoc]⟩
  | cons q qs =>
    exact ⟨p.1.data ++ '"' :: ':' :: '"' ::
        (p.2.data ++ '"' :: ',' :: serStrictAux (q :: qs)),
      by simp [serStrictAux, pairChars, List.cons_append, List.append_assoc]⟩

theorem serTrailAux_head : ∀ (ps : List (String × String)) (p : String × String),
    ∃ rest, serTrailAux (p :: ps) = '"' :: rest := by
  intro ps p
  exact ⟨p.1.data ++ '"' :: ':' :: '"' :: (p.2.data ++ '"' :: ',' :: serTrailAux ps),
    by simp [serTrailAux, pairChars, List.cons_append, List.append_assoc]⟩

/-- Strict decoding of `{` + strict members recovers the pairs. -/
theorem parseFlatObj_strict (p : String × String) (ps : List (String × String))
    (h : plainAll (p :: ps) = true) :
    parseFlatObj ('{' :: serStrictAux (p :: ps)) = some (p :: ps) := by
  obtain ⟨rest, hrest⟩ := serStrictAux_head ps p
  have hw0 : skipWs ('{' :: serStrictAux (p :: ps)) = '{' :: serStrictAux (p :: ps) :=
    skipWs_cons_nonws '{' _ rfl
  have hw1 : skipWs (serStrictAux (p :: ps)) = serStrictAux (p :: ps) := by
    rw [hrest]
    exact skipWs_cons_nonws '"' _ rfl
  have hfuel : (serStrictAux (p :: ps)).length + 1
      = ((serStrictAux (p :: ps)).length - ps.length) + ps.length + 1 := by
    have := serStrict_len_ge ps p
    simp only [List.length_cons] at this
    omega
  have hpp := parsePairsF_serStrict ps p ((serStrictAux (p :: ps)).length - ps.length) h
  unfold parseFlatObj
  rw [hw0]
  simp only [beq_self_eq_true, if_true]
  rw [hw1, hrest]
  simp only [show (('"' : Char) == '}') = false from rfl, Bool.false_eq_true, if_false]
  rw [← hrest, hfuel, hpp]
  simp only [beq_self_eq_true, if_true]
  rfl

/-- Direct strict decoding of the trailing-comma text fails (so
`safe_json_loads` falls through to the sanitize-and-retry path). -/
theorem parseFlatObj_serTrail_none (p : String × String)
    (ps : List (String × String)) (h : plainAll (p :: ps) = true) :
    parseFlatObj ('{' :: serTrailAux (p :: ps)) = none := by
  obtain ⟨rest, hrest⟩ := serTrailAux_head ps p
  have hw0 : skipWs ('{' :: serTrailAux (p :: ps)) = '{' :: serTrailAux (p :: ps) :=
    skipWs_cons_nonws '{' _ rfl
  have hw1 : skipWs (serTrailAux (p :: ps)) = serTrailAux (p :: ps) := by
    rw [hrest]
    exact skipWs_cons_nonws '"' _ rfl
  have hpp := parsePairsF_serTrail_none ps p
    ((serTrailAux (p :: ps)).length + 1) h
  unfold parseFlatObj
  rw [hw0]
  simp only [beq_self_eq_true, if_true]
  rw [hw1, hrest]
  simp only [show (('"' : Char) == '}') = false from rfl, Bool.false_eq_true, if_false]
  rw [← hrest, hpp]

/-- `sanitize_json` turns the trailing-comma object text into the strict
object text — the only change the four passes make is removing the trailing
comma. -/
theorem sanitize_json_serTrail (ps : List (String × String))
    (hne : ps ≠ []) (h : plainAll ps = true) :
    sanitize_json (serTrail ps) = String.mk ('{' :: serStrictAux ps) := by
  unfold sanitize_json serTrail
  rw [show (String.mk ('{' :: serTrailAux ps)).data = '{' :: serTrailAux ps from rfl]
  rw [fixPairs_serTrail ps h]
  rw [stripCtl_serTrail ps h]
  unfold stripCommaClose
  rw [show ('{' :: serTrailAux ps).length = (serTrailAux ps).length + 1 from by simp]
  rw [sccF_step_nc '}' '{' _ _ rfl]
  rw [show (serTrailAux ps).length = (serTrailAux ps).length + 0 from by omega]
  rw [sccF_serTrailAux_to_strict ps h hne 0]
  rw [show ('{' :: serStrictAux ps).length = (serStrictAux ps).length + 1 from by simp]
  rw [sccF_step_nc ']' '{' _ _ rfl]
  rw [show (serStrictAux ps).length = (serStrictAux ps).length + 0 from by omega]
  rw [sccF_serStrictAux_id ps h hne 0]

/-- **C8 (counterexample).** An embedded raw quote inside a value is *not*
repaired: the value group of the fix-up regex cannot match a quote, so
`sanitize_json` returns the input unchanged and decoding still fails —
contradicting the claim that such input normalizes to strictly valid JSON
with the intended field values. -/
theorem c8_raw_quote_not_repaired_counterexample :
    sanitize_json "\x7b\"a\": \"x \"y\" z\"\x7d" = "\x7b\"a\": \"x \"y\" z\"\x7d" ∧
    safe_json_loads "\x7b\"a\": \"x \"y\" z\"\x7d" = none :=
  ⟨rfl, rfl⟩

/-- **C8 (amended).** For flat string-valued objects with plain keys and
values (no quote, backslash, colon, comma, closing brace/bracket or control
characters) and a trailing comma before `}`: strict decoding of the raw text
fails, normalization yields exactly the strict serialization, and the
normalize-then-parse round trip recovers precisely the original key/value
pairs — `safe_json_loads` returns them. -/
theorem c8_trailing_comma_roundtrip (ps : List (String × String))
    (hne : ps ≠ []) (h : plainAll ps = true) :
    parseFlatObj (serTrail ps).data = none ∧
    sanitize_json (serTrail ps) = String.mk ('{' :: serStrictAux ps) ∧
    safe_json_loads (serTrail ps) = some ps := by
  obtain ⟨p, ps2, rfl⟩ : ∃ p ps2, ps = p :: ps2 := by
    cases ps with
    | nil => exact absurd rfl hne
    | cons p ps2 => exact ⟨p, ps2, rfl⟩
  have h1 : parseFlatObj (serTrail (p :: ps2)).data = none := by
    rw [show (serTrail (p :: ps2)).data = '{' :: serTrailAux (p :: ps2) from rfl]
    exact parseFlatObj_serTrail_none p ps2 h
  have h2 := sanitize_json_serTrail (p :: ps2) hne h
  refine ⟨h1, h2, ?_⟩
  unfold safe_json_loads
  rw [h1, h2]
  rw [show (String.mk ('{' :: serStrictAux (p :: ps2))).data
      = '{' :: serStrictAux (p :: ps2) from rfl]
  exact parseFlatObj_strict p ps2 h

/-- Witness for C8's amended theorem at a concrete input. -/
theorem c8_trailing_comma_roundtrip_witness :
    parseFlatObj (serTrail [("artist", "Artist A"), ("title", "Song B")]).data = none ∧
    sanitize_json (serTrail [("artist", "Artist A"), ("title", "Song B")])
      = String.mk ('{' :: serStrictAux [("artist", "Artist A"), ("title", "Song B")]) ∧
    safe_json_loads (serTrail [("artist", "Artist A"), ("title", "Song B")])
      = some [("artist", "Artist A"), ("title", "Song B")] :=
  c8_trailing_comma_roundtrip [("artist", "Artist A"), ("title", "Song B")]
    (by simp) (by decide)

end PubNWR
